import Mathlib

/-!
# Block-compression adapters of `util/compression.h`

A shallow embedding of the adapters `Snappy_*`, `Zlib_*`, `BZip2_*`, `LZ4_*` and
`LZ4HC_Compress`.  The codec libraries (snappy, zlib, bzip2, lz4) are not part of the
repository: every adapter takes the library as an explicit engine argument, and the
preprocessor switches `SNAPPY`, `ZLIB`, `BZIP2`, `LZ4`, `LZ4_VERSION_MAJOR` are Boolean arguments.

Platform model: LP64, little-endian (`sizeof(size_t) = 8`, `sizeof(int) = 4`,
`sizeof(unsigned int) = 4`).  `size_t` values are natural numbers (a buffer of `2^64` bytes cannot
exist, so `size_t` arithmetic on buffer sizes does not wrap); every cast to `unsigned int` or to
`int` is modelled explicitly.  The `while` loops take a fuel argument: the number of engine calls
the loop may still make.  The calls that only release an engine (`deflateEnd`, `inflateEnd`,
`BZ2_bzCompressEnd`, `BZ2_bzDecompressEnd`) and `delete[]` have no effect on the results and are
left out.
-/

namespace rocksdb

/-- One `char` of a buffer. -/
abbrev Byte := Fin 256

/-! ## Casts and scaling -/

/-- The cast `static_cast<unsigned int>(n)` of a `size_t`. -/
def to_uint (n : Nat) : Nat := n % 2 ^ 32

/-- The cast `static_cast<int>(n)` of a `size_t` (two's complement, 32 bits). -/
def to_int (n : Nat) : Int :=
  if n % 2 ^ 32 < 2 ^ 31 then ((n % 2 ^ 32 : Nat) : Int) else ((n % 2 ^ 32 : Nat) : Int) - 2 ^ 32

/-- The cast `static_cast<size_t>(v)` of an `int`. -/
def to_size_t (v : Int) : Nat := (v % 2 ^ 64).toNat

/-- The expression `static_cast<size_t>(n * 0.2)`.  For every `n` below `2^50` the double product
truncates to the integer quotient `n / 5`. -/
def scale_02 (n : Nat) : Nat := n / 5

/-- The expression `static_cast<size_t>(n * 1.2)`.  For every `n` below `2^50` the double product
truncates to the integer quotient `6 * n / 5`. -/
def scale_12 (n : Nat) : Nat := n * 6 / 5

/-! ## Buffers -/

/-- The call `s.resize(n)` of `std::string` (new cells hold `fill`; for `std::string` that is
`'\0'`), also used for `new char[n]` followed by `memcpy` of the old contents, where the new cells
are uninitialised. -/
def resize {α : Type} (fill : α) (s : List α) (n : Nat) : List α :=
  s.take n ++ List.replicate (n - s.length) fill

/-- Storing the bytes `w` at offset `off` of a buffer.  The buffer keeps its size: bytes that would
land past its end are not part of it. -/
def store {α : Type} (buf : List α) (off : Nat) (w : List α) : List α :=
  (buf.take off ++ w ++ buf.drop (off + w.length)).take buf.length

/-! ## Results -/

/-- How a call ended. -/
inductive Returned (β : Type)
  | value (v : β)
  | threw
  | running
  deriving DecidableEq, Repr

/-- One call of a streaming engine function (`deflate`, `inflate`, `BZ2_bzCompress`,
`BZ2_bzDecompress`): what the adapter offered and what the engine answered. -/
structure Call where
  next_out : Nat
  avail_out : Nat
  size : Nat
  status : Int
  written : List Byte
  deriving DecidableEq, Repr

/-- The engine calls an adapter makes, in order (a call-count hook). -/
inductive Event
  | init (status : Int)
  | stream (c : Call)
  | oneshot (ret : Int)
  deriving DecidableEq, Repr

/-- Result of a `*_Compress` adapter: the returned `bool`, the caller's `*output` after the call
and the engine calls made. -/
structure CompressResult where
  ret : Returned Bool
  output : List Byte
  events : List Event
  deriving DecidableEq, Repr

/-- Result of a `*_Uncompress` adapter returning `char*`: the returned pointer (`none` is
`nullptr`; a cell `none` of the buffer is uninitialised memory), the caller's `*decompress_size`
after the call and the engine calls made. -/
structure UncompressResult where
  ret : Returned (Option (List (Option Byte)))
  decompress_size : Int
  events : List Event
  deriving DecidableEq, Repr

/-- The fields of `CompressionOptions` (`rocksdb/options.h`) the adapters read. -/
structure CompressionOptions where
  window_bits : Int
  level : Int
  strategy : Int
  deriving DecidableEq, Repr

/-! ## Streaming engines (zlib, bzip2) -/

/-- What one call of a streaming engine does: its status, how many input bytes it consumed
(`next_in` advances, `avail_in` drops), the bytes it stored at `next_out` (`next_out` advances and
`avail_out` drops by their number) and its new internal state. -/
structure Reply (σ : Type) where
  status : Int
  consumed : Nat
  written : List Byte
  state : σ

/-- A streaming library: the init function with its arguments `ι`, and the work function, which
sees its state, the `avail_in` bytes at `next_in` and `avail_out`. -/
structure StreamEngine (ι σ : Type) where
  init : ι → Int × σ
  step : σ → List Byte → Nat → Reply σ

/-- The fields of `z_stream` and `bz_stream` the adapters use; `next_in` is an offset into the
input, `next_out` an offset into the working buffer. -/
structure z_stream (σ : Type) where
  next_in : Nat
  avail_in : Nat
  next_out : Nat
  avail_out : Nat
  state : σ

/-- How a growth loop ended: normally, by a `return` from inside the loop, or not yet. -/
inductive LoopExit (σ α : Type)
  | finished (strm : z_stream σ) (buf : List α)
  | failed (strm : z_stream σ) (buf : List α)
  | running (strm : z_stream σ) (buf : List α)

/-! Status codes and constants of `zlib.h` and `bzlib.h`. -/

def Z_OK : Int := 0
def Z_STREAM_END : Int := 1
def Z_BUF_ERROR : Int := -5
def Z_STREAM_ERROR : Int := -2
def Z_DEFLATED : Int := 8
def BZ_OK : Int := 0
def BZ_FINISH_OK : Int := 3
def BZ_STREAM_END : Int := 4
def BZ_SEQUENCE_ERROR : Int := -1

/-- The stream after an engine call: the cursors advance and the counters drop by what the engine
consumed and stored (an engine is not meant to take more than `avail_in` or store more than
`avail_out`; the counters of one that does stop at 0). -/
def advance {σ : Type} (strm : z_stream σ) (r : Reply σ) : z_stream σ :=
  { next_in := strm.next_in + r.consumed
    avail_in := strm.avail_in - r.consumed
    next_out := strm.next_out + r.written.length
    avail_out := strm.avail_out - r.written.length
    state := r.state }

/-- The input the engine may read: the `avail_in` bytes at `next_in`. -/
def view {σ : Type} (input : List Byte) (strm : z_stream σ) : List Byte :=
  (input.drop strm.next_in).take strm.avail_in

/-- The engine call on the current stream. -/
def engine_reply {σ : Type} (step : σ → List Byte → Nat → Reply σ) (input : List Byte)
    (strm : z_stream σ) : Reply σ :=
  step strm.state (view input strm) strm.avail_out

/-- The record of an engine call. -/
def call_event {σ α : Type} (strm : z_stream σ) (buf : List α) (r : Reply σ) : Event :=
  .stream ⟨strm.next_out, strm.avail_out, buf.length, r.status, r.written⟩

/-- The working buffer after an engine call: the bytes the engine stored are at `next_out`. -/
def stored {σ α : Type} (inj : Byte → α) (strm : z_stream σ) (buf : List α) (r : Reply σ) :
    List α :=
  store buf strm.next_out (r.written.map inj)

/-- The new size of the growth step of `Zlib_Compress` (lines 104-106) and `Zlib_Uncompress`
(lines 165-167): 20% more, and at least 10 bytes more. -/
def zlib_new_sz (sz : Nat) : Nat :=
  let new_sz_delta := scale_02 sz
  sz + (if new_sz_delta < 10 then 10 else new_sz_delta)

/-- The new size of the growth step of `BZip2_Compress` (line 229) and `BZip2_Uncompress`
(line 281). -/
def bzip2_new_sz (sz : Nat) : Nat := scale_12 sz

/-- The buffer after a growth step (lines 107, 168-171, 230, 282-285): the old contents, then new
cells. -/
def grow_buf {α : Type} (new_sz : Nat → Nat) (fill : α) (buf : List α) : List α :=
  resize fill buf (new_sz buf.length)

/-- The stream after a growth step (lines 109-110, 174-175, 232-233, 288-289): the output cursor is
put at the old size and the new cells are offered. -/
def grow_strm {σ α : Type} (new_sz : Nat → Nat) (strm : z_stream σ) (buf : List α) :
    z_stream σ :=
  { strm with next_out := buf.length, avail_out := to_uint (new_sz buf.length - buf.length) }

/-- The loop `while (!done)` of `Zlib_Compress` (lines 95-117) and `Zlib_Uncompress`
(lines 157-183).  `fill` is what a new cell holds, `inj` turns an engine byte into a cell. -/
def zlib_loop {σ α : Type} (step : σ → List Byte → Nat → Reply σ) (input : List Byte)
    (fill : α) (inj : Byte → α) : Nat → z_stream σ → List α → LoopExit σ α × List Event
  | 0, strm, buf => (.running strm buf, [])
  | fuel + 1, strm, buf =>
    let r := engine_reply step input strm
    let buf1 := stored inj strm buf r
    let strm1 := advance strm r
    if r.status = Z_STREAM_END then (.finished strm1 buf1, [call_event strm buf r])
    else if r.status = Z_OK then
      let rest := zlib_loop step input fill inj fuel (grow_strm zlib_new_sz strm1 buf1)
        (grow_buf zlib_new_sz fill buf1)
      (rest.1, call_event strm buf r :: rest.2)
    else (.failed strm1 buf1, [call_event strm buf r])

/-- The arguments of `deflateInit2`. -/
structure DeflateArgs where
  level : Int
  method : Int
  windowBits : Int
  memLevel : Int
  strategy : Int
  deriving DecidableEq, Repr

/-- `Zlib_Compress` (lines 64-124). -/
def Zlib_Compress {σ : Type} (ZLIB : Bool) (eng : StreamEngine DeflateArgs σ) (fuel : Nat)
    (opts : CompressionOptions) (input : List Byte) (output : List Byte) : CompressResult :=
  if ZLIB then
    let length := input.length
    let memLevel : Int := 8
    let i := eng.init ⟨opts.level, Z_DEFLATED, opts.window_bits, memLevel, opts.strategy⟩
    if i.1 ≠ Z_OK then ⟨.value false, output, [.init i.1]⟩
    else
      let output1 := resize 0 output length
      let strm : z_stream σ :=
        { next_in := 0, avail_in := to_uint length, next_out := 0, avail_out := to_uint length,
          state := i.2 }
      match zlib_loop eng.step input 0 id fuel strm output1 with
      | (.finished strm1 buf, evs) =>
        ⟨.value true, resize 0 buf (buf.length - strm1.avail_out), .init i.1 :: evs⟩
      | (.failed _ buf, evs) => ⟨.value false, buf, .init i.1 :: evs⟩
      | (.running _ buf, evs) => ⟨.running, buf, .init i.1 :: evs⟩
  else ⟨.value false, output, []⟩

/-- `Zlib_Uncompress` (lines 126-191); `input_length` is the length of `input_data`. -/
def Zlib_Uncompress {σ : Type} (ZLIB : Bool) (eng : StreamEngine Int σ) (fuel : Nat)
    (input_data : List Byte) (decompress_size : Int) (windowBits : Int) : UncompressResult :=
  if ZLIB then
    let input_length := input_data.length
    let i := eng.init (if windowBits > 0 then windowBits + 32 else windowBits)
    if i.1 ≠ Z_OK then ⟨.value none, decompress_size, [.init i.1]⟩
    else
      let output_len := input_length * 5
      let output : List (Option Byte) := List.replicate output_len none
      let strm : z_stream σ :=
        { next_in := 0, avail_in := to_uint input_length, next_out := 0,
          avail_out := to_uint output_len, state := i.2 }
      match zlib_loop eng.step input_data none some fuel strm output with
      | (.finished strm1 buf, evs) =>
        ⟨.value (some buf), to_int (buf.length - strm1.avail_out), .init i.1 :: evs⟩
      | (.failed _ _, evs) => ⟨.value none, decompress_size, .init i.1 :: evs⟩
      | (.running _ _, evs) => ⟨.running, decompress_size, .init i.1 :: evs⟩
  else ⟨.value none, decompress_size, []⟩

/-- The loop `while (_stream.next_in != nullptr && _stream.avail_in != 0)` of `BZip2_Compress`
(lines 220-240) and `BZip2_Uncompress` (lines 273-296).  `next_in` points into the caller's input
and is never null.  `more` is the status of the growth case: `BZ_FINISH_OK` when compressing,
`BZ_OK` when decompressing. -/
def bzip2_loop {σ α : Type} (more : Int) (step : σ → List Byte → Nat → Reply σ)
    (input : List Byte) (fill : α) (inj : Byte → α) :
    Nat → z_stream σ → List α → LoopExit σ α × List Event
  | 0, strm, buf =>
    if strm.avail_in ≠ 0 then (.running strm buf, []) else (.finished strm buf, [])
  | fuel + 1, strm, buf =>
    if strm.avail_in ≠ 0 then
      let r := engine_reply step input strm
      let buf1 := stored inj strm buf r
      let strm1 := advance strm r
      if r.status = BZ_STREAM_END then
        let rest := bzip2_loop more step input fill inj fuel strm1 buf1
        (rest.1, call_event strm buf r :: rest.2)
      else if r.status = more then
        let rest := bzip2_loop more step input fill inj fuel (grow_strm bzip2_new_sz strm1 buf1)
          (grow_buf bzip2_new_sz fill buf1)
        (rest.1, call_event strm buf r :: rest.2)
      else (.failed strm1 buf1, [call_event strm buf r])
    else (.finished strm buf, [])

/-- The arguments of `BZ2_bzCompressInit`. -/
structure BzCompressArgs where
  blockSize100k : Int
  verbosity : Int
  workFactor : Int
  deriving DecidableEq, Repr

/-- The arguments of `BZ2_bzDecompressInit`. -/
structure BzDecompressArgs where
  verbosity : Int
  small : Int
  deriving DecidableEq, Repr

/-- `BZip2_Compress` (lines 193-247); its `opts` argument is unused. -/
def BZip2_Compress {σ : Type} (BZIP2 : Bool) (eng : StreamEngine BzCompressArgs σ) (fuel : Nat)
    (input : List Byte) (output : List Byte) : CompressResult :=
  if BZIP2 then
    let length := input.length
    let i := eng.init ⟨1, 0, 30⟩
    if i.1 ≠ BZ_OK then ⟨.value false, output, [.init i.1]⟩
    else
      let output1 := resize 0 output length
      let strm : z_stream σ :=
        { next_in := 0, avail_in := to_uint length, next_out := 0, avail_out := to_uint length,
          state := i.2 }
      match bzip2_loop BZ_FINISH_OK eng.step input 0 id fuel strm output1 with
      | (.finished strm1 buf, evs) =>
        ⟨.value true, resize 0 buf (buf.length - strm1.avail_out), .init i.1 :: evs⟩
      | (.failed _ buf, evs) => ⟨.value false, buf, .init i.1 :: evs⟩
      | (.running _ buf, evs) => ⟨.running, buf, .init i.1 :: evs⟩
  else ⟨.value false, output, []⟩

/-- `BZip2_Uncompress` (lines 249-303); `input_length` is the length of `input_data`. -/
def BZip2_Uncompress {σ : Type} (BZIP2 : Bool) (eng : StreamEngine BzDecompressArgs σ)
    (fuel : Nat) (input_data : List Byte) (decompress_size : Int) : UncompressResult :=
  if BZIP2 then
    let input_length := input_data.length
    let i := eng.init ⟨0, 0⟩
    if i.1 ≠ BZ_OK then ⟨.value none, decompress_size, [.init i.1]⟩
    else
      let output_len := input_length * 5
      let output : List (Option Byte) := List.replicate output_len none
      let strm : z_stream σ :=
        { next_in := 0, avail_in := to_uint input_length, next_out := 0,
          avail_out := to_uint output_len, state := i.2 }
      match bzip2_loop BZ_OK eng.step input_data none some fuel strm output with
      | (.finished strm1 buf, evs) =>
        ⟨.value (some buf), to_int (buf.length - strm1.avail_out), .init i.1 :: evs⟩
      | (.failed _ _, evs) => ⟨.value none, decompress_size, .init i.1 :: evs⟩
      | (.running _ _, evs) => ⟨.running, decompress_size, .init i.1 :: evs⟩
  else ⟨.value none, decompress_size, []⟩

/-! ## One-shot engines (lz4, snappy) -/

/-- The lz4 library functions the adapters call.  Each compress or decompress function returns its
`int` result and the bytes it stored at its destination pointer.  The field
`LZ4_decompress_safe_partial_fn` stands for the library function `LZ4_decompress_safe_partial`. -/
structure LZ4Engine where
  LZ4_compressBound : Int → Int
  LZ4_compress_limitedOutput : List Byte → Int → Int → Int × List Byte
  LZ4_compressHC2_limitedOutput : List Byte → Int → Int → Int → Int × List Byte
  LZ4_compressHC_limitedOutput : List Byte → Int → Int → Int × List Byte
  LZ4_decompress_safe_partial_fn : List Byte → Int → Int → Int → Int × List Byte

/-- The object representation of a `size_t`: 8 bytes, least significant first; what
`memcpy(p, &length, sizeof(length))` stores. -/
def size_t_bytes (n : Nat) : List Byte :=
  (List.range 8).map (fun i => Fin.ofNat (n / 256 ^ i))

/-- The `int` that `memcpy(&output_len, input_data, sizeof(output_len))` reads: the first 4 bytes,
least significant first. -/
def read_int (input_data : List Byte) : Int :=
  to_int ((input_data.getD 0 0).val + 256 * (input_data.getD 1 0).val
    + 65536 * (input_data.getD 2 0).val + 16777216 * (input_data.getD 3 0).val)

/-- `LZ4_Compress` (lines 305-321); its `opts` argument is unused. -/
def LZ4_Compress (LZ4 : Bool) (eng : LZ4Engine) (input : List Byte) (output : List Byte) :
    CompressResult :=
  if LZ4 then
    let length := input.length
    let compressBound := eng.LZ4_compressBound (to_int length)
    let output1 := resize 0 output (to_size_t (8 + compressBound))
    let output2 := store output1 0 (size_t_bytes length)
    let r := eng.LZ4_compress_limitedOutput input (to_int length) compressBound
    let output3 := store output2 8 r.2
    let evs := [Event.oneshot compressBound, Event.oneshot r.1]
    if r.1 = 0 then ⟨.value false, output3, evs⟩
    else ⟨.value true, resize 0 output3 (to_size_t (8 + r.1)), evs⟩
  else ⟨.value false, output, []⟩

/-- `LZ4HC_Compress` (lines 344-366). -/
def LZ4HC_Compress (LZ4 : Bool) (LZ4_VERSION_MAJOR : Bool) (eng : LZ4Engine)
    (opts : CompressionOptions) (input : List Byte) (output : List Byte) : CompressResult :=
  if LZ4 then
    let length := input.length
    let compressBound := eng.LZ4_compressBound (to_int length)
    let output1 := resize 0 output (to_size_t (8 + compressBound))
    let output2 := store output1 0 (size_t_bytes length)
    let r :=
      if LZ4_VERSION_MAJOR then
        eng.LZ4_compressHC2_limitedOutput input (to_int length) compressBound opts.level
      else eng.LZ4_compressHC_limitedOutput input (to_int length) compressBound
    let output3 := store output2 8 r.2
    let evs := [Event.oneshot compressBound, Event.oneshot r.1]
    if r.1 = 0 then ⟨.value false, output3, evs⟩
    else ⟨.value true, resize 0 output3 (to_size_t (8 + r.1)), evs⟩
  else ⟨.value false, output, []⟩

/-- `LZ4_Uncompress` (lines 323-342); `input_length` is the length of `input_data`.
`new char[output_len]` with a negative `output_len` throws (`std::bad_array_new_length`). -/
def LZ4_Uncompress (LZ4 : Bool) (eng : LZ4Engine) (input_data : List Byte)
    (decompress_size : Int) : UncompressResult :=
  if LZ4 then
    let input_length := input_data.length
    if input_length < 8 then ⟨.value none, decompress_size, []⟩
    else
      let output_len := read_int input_data
      if output_len < 0 then ⟨.threw, decompress_size, []⟩
      else
        let output : List (Option Byte) := List.replicate output_len.toNat none
        let r := eng.LZ4_decompress_safe_partial_fn (input_data.drop 8) (to_int (input_length - 8))
          output_len output_len
        let output1 := store output 0 (r.2.map some)
        if r.1 < 0 then ⟨.value none, r.1, [.oneshot r.1]⟩
        else ⟨.value (some output1), r.1, [.oneshot r.1]⟩
  else ⟨.value none, decompress_size, []⟩

/-- The snappy library functions the adapters call. -/
structure SnappyEngine where
  MaxCompressedLength : Nat → Nat
  RawCompress : List Byte → Nat × List Byte
  GetUncompressedLength : List Byte → Nat → Bool × Nat
  RawUncompress : List Byte → List Byte → Bool × List Byte

/-- `Snappy_Compress` (lines 33-44); its `opts` argument is unused. -/
def Snappy_Compress (SNAPPY : Bool) (eng : SnappyEngine) (input : List Byte)
    (output : List Byte) : CompressResult :=
  if SNAPPY then
    let length := input.length
    let output1 := resize 0 output (eng.MaxCompressedLength length)
    let r := eng.RawCompress input
    let output2 := store output1 0 r.2
    ⟨.value true, resize 0 output2 r.1, [.oneshot (eng.MaxCompressedLength length), .oneshot r.1]⟩
  else ⟨.value false, output, []⟩

/-- `Snappy_GetUncompressedLength` (lines 46-53): the returned `bool`, `*result` after the call
and the engine calls made. -/
def Snappy_GetUncompressedLength (SNAPPY : Bool) (eng : SnappyEngine) (input : List Byte)
    (result : Nat) : Bool × Nat × List Event :=
  if SNAPPY then
    let r := eng.GetUncompressedLength input result
    (r.1, r.2, [.oneshot r.2])
  else (false, result, [])

/-- `Snappy_Uncompress` (lines 55-62): the returned `bool`, the caller's `output` buffer after the
call and the engine calls made. -/
def Snappy_Uncompress (SNAPPY : Bool) (eng : SnappyEngine) (input : List Byte)
    (output : List Byte) : Bool × List Byte × List Event :=
  if SNAPPY then
    let r := eng.RawUncompress input output
    (r.1, r.2, [.oneshot 0])
  else (false, output, [])

/-! ## Concrete engines -/

/-- An engine that plays a script: each call answers with the next scripted status, consumed count
and written bytes; once the script is over it answers `last` without consuming or writing. -/
def scripted_engine {ι : Type} (init_status : Int) (script : List (Int × Nat × List Byte))
    (last : Int) : StreamEngine ι (List (Int × Nat × List Byte)) where
  init := fun _ => (init_status, script)
  step := fun s _ _ =>
    match s with
    | [] => ⟨last, 0, [], []⟩
    | e :: rest => ⟨e.1, e.2.1, e.2.2, rest⟩

/-- An engine that computes the function `f` of its input.  Its init function answers 0 (`Z_OK`,
`BZ_OK`).  Offered no output space it answers `zero_space` and does nothing.  Otherwise the first
call takes the whole input and computes the stream `f input`; each call stores as much of the
remaining stream as fits in `avail_out` and answers `fin` when the stream is complete, `ok` when
the offered space is used up.  The state is the part of the stream still to be stored (`none`
before the input is taken). -/
def buffering_engine {ι : Type} (f : List Byte → List Byte) (ok fin zero_space : Int) :
    StreamEngine ι (Option (List Byte)) where
  init := fun _ => (0, none)
  step := fun s inp a =>
    if a = 0 then ⟨zero_space, 0, [], s⟩
    else
      { status := if (s.getD (f inp)).length ≤ a then fin else ok
        consumed := inp.length
        written := (s.getD (f inp)).take a
        state := some ((s.getD (f inp)).drop a) }

/-- A stored-block codec: the stream of `x` is one header byte followed by `x`. -/
def stored_enc (x : List Byte) : List Byte := 120 :: x

/-- The inverse of `stored_enc`. -/
def stored_dec (p : List Byte) : List Byte := p.drop 1

/-- A deflate engine for `stored_enc` that, like zlib, answers `Z_BUF_ERROR` when it is offered no
output space. -/
def stored_deflate : StreamEngine DeflateArgs (Option (List Byte)) :=
  buffering_engine stored_enc Z_OK Z_STREAM_END Z_BUF_ERROR

/-- The inflate engine for `stored_dec`. -/
def stored_inflate : StreamEngine Int (Option (List Byte)) :=
  buffering_engine stored_dec Z_OK Z_STREAM_END Z_BUF_ERROR

/-- A bzip2 compressor for `stored_enc`. -/
def stored_bz_compress : StreamEngine BzCompressArgs (Option (List Byte)) :=
  buffering_engine stored_enc BZ_FINISH_OK BZ_STREAM_END BZ_SEQUENCE_ERROR

/-- The bzip2 decompressor for `stored_dec`. -/
def stored_bz_decompress : StreamEngine BzDecompressArgs (Option (List Byte)) :=
  buffering_engine stored_dec BZ_OK BZ_STREAM_END BZ_SEQUENCE_ERROR

/-- A lossless codec with an empty stream: the stream of `[0]` is empty, the stream of any other
`x` is one header byte followed by `x`. -/
def sparse_enc (x : List Byte) : List Byte := if x = [0] then [] else 120 :: x

/-- The inverse of `sparse_enc`. -/
def sparse_dec (p : List Byte) : List Byte := if p = [] then [0] else p.drop 1

/-- The deflate engine for `sparse_enc`. -/
def sparse_deflate : StreamEngine DeflateArgs (Option (List Byte)) :=
  buffering_engine sparse_enc Z_OK Z_STREAM_END Z_BUF_ERROR

/-- The inflate engine for `sparse_dec`. -/
def sparse_inflate : StreamEngine Int (Option (List Byte)) :=
  buffering_engine sparse_dec Z_OK Z_STREAM_END Z_BUF_ERROR

/-- An engine that never consumes, never stores and always answers `status`. -/
def stuck_engine {ι : Type} (status : Int) : StreamEngine ι Unit where
  init := fun _ => (0, ())
  step := fun _ _ _ => ⟨status, 0, [], ()⟩

/-- A deflate engine that fills the 3 bytes it is offered, asks for more space and then fails. -/
def deflate_failing_midway : StreamEngine DeflateArgs (List (Int × Nat × List Byte)) :=
  scripted_engine 0 [(Z_OK, 3, [7, 8, 9]), (Z_STREAM_ERROR, 0, [])] Z_STREAM_ERROR

/-- A bzip2 compressor that fills the 3 bytes it is offered, asks for more space and fails. -/
def bz_compress_failing_midway : StreamEngine BzCompressArgs (List (Int × Nat × List Byte)) :=
  scripted_engine 0 [(BZ_FINISH_OK, 2, [7, 8, 9]), (BZ_SEQUENCE_ERROR, 0, [])] BZ_SEQUENCE_ERROR

/-- An engine whose init function fails. -/
def init_failing {ι : Type} : StreamEngine ι (List (Int × Nat × List Byte)) :=
  scripted_engine (-2) [] (-2)

/-- A zlib engine that answers `Z_OK` after filling the 5 bytes it is offered, then stores one more
byte and answers `Z_STREAM_END`. -/
def zlib_in_two_calls {ι : Type} : StreamEngine ι (List (Int × Nat × List Byte)) :=
  scripted_engine 0 [(Z_OK, 1, [7, 8, 9, 10, 11]), (Z_STREAM_END, 0, [5])] Z_BUF_ERROR

/-- A bzip2 engine that answers `more` after filling the 5 bytes it is offered, then takes `n`
bytes of input, stores one more byte and answers `BZ_STREAM_END`. -/
def bz_in_two_calls {ι : Type} (more : Int) (n : Nat) :
    StreamEngine ι (List (Int × Nat × List Byte)) :=
  scripted_engine 0 [(more, 0, [7, 8, 9, 10, 11]), (BZ_STREAM_END, n, [5])] BZ_SEQUENCE_ERROR

/-- An engine that answers `more` after storing a single byte in the 3 or more bytes it is
offered, then takes `n` bytes of input, stores one more byte and answers `fin`. -/
def leaving_gap {ι : Type} (more fin : Int) (n : Nat) :
    StreamEngine ι (List (Int × Nat × List Byte)) :=
  scripted_engine 0 [(more, 0, [7]), (fin, n, [8])] fin

/-! ## Properties of streaming engines -/

/-- The engine never stores more than `avail_out` bytes. -/
def Bounded {σ : Type} (step : σ → List Byte → Nat → Reply σ) : Prop :=
  ∀ s inp a, (step s inp a).written.length ≤ a

/-- The engine answers `more` only when it has used up the space it was offered. -/
def FillsOnMore {σ : Type} (step : σ → List Byte → Nat → Reply σ) (more : Int) : Prop :=
  ∀ s inp a, (step s inp a).status = more → (step s inp a).written.length = a

/-- The engine makes progress: the measure `μ` of its state and unread input drops at every call
whose status keeps the loop going. -/
def Progress {σ : Type} (step : σ → List Byte → Nat → Reply σ) (continuing : Int → Prop)
    (μ : σ → List Byte → Nat) : Prop :=
  ∀ s inp a, continuing (step s inp a).status →
    μ (step s inp a).state (inp.drop (step s inp a).consumed) < μ s inp

/-- The engine, initialised with `args`, streams the function `f`: `pending s inp` is the part of
the stream that a state `s` with unread input `inp` has still to store.  Offered some output
space, a call stores a prefix of the pending stream, no longer than the space, and answers either
`Z_STREAM_END`, with nothing left pending, or `Z_OK`, with the space used up.  Nothing is required
of a call that is offered no space. -/
structure Streams {ι σ : Type} (eng : StreamEngine ι σ) (args : ι)
    (f : List Byte → List Byte) (pending : σ → List Byte → List Byte) : Prop where
  init_status : (eng.init args).1 = Z_OK
  init_pending : ∀ x, pending (eng.init args).2 x = f x
  written_le : ∀ s inp a, 0 < a → (eng.step s inp a).written.length ≤ a
  written_pending : ∀ s inp a, 0 < a →
    (eng.step s inp a).written
      ++ pending (eng.step s inp a).state (inp.drop (eng.step s inp a).consumed) = pending s inp
  status : ∀ s inp a, 0 < a →
    ((eng.step s inp a).status = Z_STREAM_END ∧
      pending (eng.step s inp a).state (inp.drop (eng.step s inp a).consumed) = []) ∨
    ((eng.step s inp a).status = Z_OK ∧ (eng.step s inp a).written.length = a)

/-- The largest working buffer offered to the engine. -/
def largest_buffer : List Event → Nat
  | [] => 0
  | .stream c :: rest => max c.size (largest_buffer rest)
  | _ :: rest => largest_buffer rest

/-- The bytes the engine stored over all its calls, in order. -/
def written_of : List Event → List Byte
  | [] => []
  | .stream c :: rest => c.written ++ written_of rest
  | _ :: rest => written_of rest

/-- An lz4 library that stores the input unchanged (`LZ4_compressBound` as in `lz4.h`, every
compressor fails when the bound is too small). -/
def stored_lz4 : LZ4Engine where
  LZ4_compressBound := fun n => if n < 0 ∨ 0x7E000000 < n then 0 else n + n / 255 + 16
  LZ4_compress_limitedOutput := fun src n cap =>
    if n ≤ 0 ∨ cap < n then (0, []) else (n, src.take n.toNat)
  LZ4_compressHC2_limitedOutput := fun src n cap _ =>
    if n ≤ 0 ∨ cap < n then (0, []) else (n, src.take n.toNat)
  LZ4_compressHC_limitedOutput := fun src n cap =>
    if n ≤ 0 ∨ cap < n then (0, []) else (n, src.take n.toNat)
  LZ4_decompress_safe_partial_fn := fun src n _ cap =>
    if n < 0 ∨ cap < 0 then (-1, []) else ((min n cap), src.take (min n cap).toNat)

/-- A snappy library that stores the input unchanged. -/
def stored_snappy : SnappyEngine where
  MaxCompressedLength := fun n => 32 + n + n / 6
  RawCompress := fun src => (src.length, src)
  GetUncompressedLength := fun src _ => (true, src.length)
  RawUncompress := fun src _ => (true, src)

/-- An lz4 library whose bound is 2 bytes: a compressor that runs out of room has stored what
fitted and returns 0. -/
def cramped_lz4 : LZ4Engine where
  LZ4_compressBound := fun _ => 2
  LZ4_compress_limitedOutput := fun src n cap =>
    if cap < n then (0, src.take cap.toNat) else (n, src.take n.toNat)
  LZ4_compressHC2_limitedOutput := fun src n cap _ =>
    if cap < n then (0, src.take cap.toNat) else (n, src.take n.toNat)
  LZ4_compressHC_limitedOutput := fun src n cap =>
    if cap < n then (0, src.take cap.toNat) else (n, src.take n.toNat)
  LZ4_decompress_safe_partial_fn := fun _ _ _ _ => (-1, [])

/-- What `LZ4_decompress_safe_partial` returns on the call `LZ4_Uncompress` makes for
`input_data`. -/
def lz4_engine_count (eng : LZ4Engine) (input_data : List Byte) : Int :=
  (eng.LZ4_decompress_safe_partial_fn (input_data.drop 8) (to_int (input_data.length - 8))
    (read_int input_data) (read_int input_data)).1

/-- An `int` result that is not negative. -/
def nonneg_int (v : Int) : Prop := 0 ≤ v ∧ v < 2 ^ 31

instance (v : Int) : Decidable (nonneg_int v) := by
  unfold nonneg_int
  infer_instance

/-- The working buffer a loop ended with. -/
def LoopExit.buf {σ α : Type} : LoopExit σ α → List α
  | .finished _ b => b
  | .failed _ b => b
  | .running _ b => b

/-- Whether the loop was still running when the fuel ran out. -/
def LoopExit.is_running {σ α : Type} : LoopExit σ α → Bool
  | .running _ _ => true
  | _ => false

/-! ## Basic facts about buffers and casts -/

theorem store_length {α : Type} (buf : List α) (off : Nat) (w : List α) :
    (store buf off w).length = buf.length := by
  unfold store
  simp only [List.length_take, List.length_append, List.length_drop]
  omega

theorem resize_length {α : Type} (fill : α) (s : List α) (n : Nat) :
    (resize fill s n).length = n := by
  unfold resize
  simp only [List.length_append, List.length_take, List.length_replicate]
  omega

theorem to_uint_le (n : Nat) : to_uint n ≤ n := Nat.mod_le _ _

theorem to_uint_of_lt {n : Nat} (h : n < 2 ^ 32) : to_uint n = n := Nat.mod_eq_of_lt h

theorem to_int_of_lt {n : Nat} (h : n < 2 ^ 31) : to_int n = (n : Int) := by
  unfold to_int
  have h1 : n % 2 ^ 32 = n := Nat.mod_eq_of_lt (by omega)
  rw [h1, if_pos h]

theorem to_int_lt (n : Nat) : to_int n < 2 ^ 31 := by
  unfold to_int
  split <;> omega

/-! ## Unsupported codecs -/

/-- C9.  When a codec is not compiled in, each of its adapters fails at once, for every engine and
every input: the compress functions return `false`, the uncompress functions return `nullptr`
(`false` for snappy), no engine function is called, and the caller's `*output`, `*result` and
`*decompress_size` are what they were. -/
theorem unsupported_short_circuits {σ₁ σ₂ σ₃ σ₄ : Type} (snappy : SnappyEngine)
    (zd : StreamEngine DeflateArgs σ₁) (zi : StreamEngine Int σ₂)
    (bc : StreamEngine BzCompressArgs σ₃) (bd : StreamEngine BzDecompressArgs σ₄)
    (lz4 : LZ4Engine) (fuel : Nat) (opts : CompressionOptions) (v : Bool)
    (input output : List Byte) (result : Nat) (decompress_size windowBits : Int) :
    Snappy_Compress false snappy input output = ⟨.value false, output, []⟩ ∧
    Snappy_GetUncompressedLength false snappy input result = (false, result, []) ∧
    Snappy_Uncompress false snappy input output = (false, output, []) ∧
    Zlib_Compress false zd fuel opts input output = ⟨.value false, output, []⟩ ∧
    Zlib_Uncompress false zi fuel input decompress_size windowBits
      = ⟨.value none, decompress_size, []⟩ ∧
    BZip2_Compress false bc fuel input output = ⟨.value false, output, []⟩ ∧
    BZip2_Uncompress false bd fuel input decompress_size = ⟨.value none, decompress_size, []⟩ ∧
    LZ4_Compress false lz4 input output = ⟨.value false, output, []⟩ ∧
    LZ4_Uncompress false lz4 input decompress_size = ⟨.value none, decompress_size, []⟩ ∧
    LZ4HC_Compress false v lz4 opts input output = ⟨.value false, output, []⟩ :=
  ⟨rfl, rfl, rfl, rfl, rfl, rfl, rfl, rfl, rfl, rfl⟩

/-! ## Termination of the bzip2 loops on the input counter -/

/-- C2.  `BZip2_Compress` and `BZip2_Uncompress` return success without a `BZ_STREAM_END`.
On the empty input no engine function is called after the init and `BZip2_Compress` returns
`true` with the empty string.  On the input `[1, 2, 3]`, whose complete stream is
`[120, 1, 2, 3]`, the engine takes the input, stores the 3 bytes that fit and answers
`BZ_FINISH_OK`; the loop ends because no input is left, and `BZip2_Compress` returns `true` with
the truncated stream `[120, 1, 2]`.  An engine that takes the only input byte, stores nothing and
answers `BZ_OK` makes `BZip2_Uncompress` return a buffer, with `*decompress_size = 5`. -/
theorem bzip2_success_without_stream_end :
    BZip2_Compress true stored_bz_compress 5 [] [] = ⟨.value true, [], [.init 0]⟩ ∧
    BZip2_Compress true stored_bz_compress 5 [1, 2, 3] []
      = ⟨.value true, [120, 1, 2], [.init 0, .stream ⟨0, 3, 3, BZ_FINISH_OK, [120, 1, 2]⟩]⟩ ∧
    BZip2_Uncompress true (scripted_engine 0 [(BZ_OK, 1, [])] BZ_STREAM_END) 5 [66] 77
      = ⟨.value (some [none, none, none, none, none, none]), 5,
          [.init 0, .stream ⟨0, 5, 5, BZ_OK, []⟩]⟩ := by
  decide

/-! ## The growth step -/

/-- C7.  The growth step of `BZip2_Compress` does not raise a capacity below 5.  On a one-byte
input, the engine fills the byte it is offered and answers `BZ_FINISH_OK`; the growth step leaves
the capacity at 1, so the second call is offered no space (`avail_out = 0`), the engine cannot go
on and `BZip2_Compress` fails. -/
theorem bzip2_growth_stalls_below_five :
    bzip2_new_sz 1 = 1 ∧ bzip2_new_sz 4 = 4 ∧
    BZip2_Compress true (scripted_engine 0 [(BZ_FINISH_OK, 0, [66])] BZ_SEQUENCE_ERROR) 5 [97] []
      = ⟨.value false, [66],
          [.init 0, .stream ⟨0, 1, 1, BZ_FINISH_OK, [66]⟩,
            .stream ⟨1, 0, 1, BZ_SEQUENCE_ERROR, []⟩]⟩ := by
  decide

/-! ## The LZ4 frame -/

theorem to_size_t_of_nonneg_int {v : Int} (h : nonneg_int v) : to_size_t (8 + v) = 8 + v.toNat := by
  unfold to_size_t
  obtain ⟨h0, h1⟩ := h
  have : (8 + v) % 2 ^ 64 = 8 + v := Int.emod_eq_of_lt (by omega) (by omega)
  rw [this]
  omega

theorem read_int_take (l : List Byte) : read_int (l.take 4) = read_int l := by
  unfold read_int
  simp [List.getD_eq_getElem?_getD, List.getElem?_take]

theorem read_int_size_t_bytes (n : Nat) : read_int (size_t_bytes n) = to_int n := by
  unfold read_int size_t_bytes
  have e : List.range 8 = [0, 1, 2, 3, 4, 5, 6, 7] := by decide
  rw [e]
  simp only [List.map, List.getD_cons_zero, List.getD_cons_succ, Fin.ofNat]
  have hA : n / 256 ^ 0 % (255 + 1) + 256 * (n / 256 ^ 1 % (255 + 1))
      + 65536 * (n / 256 ^ 2 % (255 + 1)) + 16777216 * (n / 256 ^ 3 % (255 + 1))
      = n % 2 ^ 32 := by
    norm_num
    omega
  rw [hA]
  unfold to_int
  rw [Nat.mod_mod]

theorem size_t_bytes_length (n : Nat) : (size_t_bytes n).length = 8 := by
  simp [size_t_bytes]

theorem store_zero_take {α : Type} (buf w : List α) (h : w.length ≤ buf.length) :
    (store buf 0 w).take w.length = w := by
  unfold store
  rw [List.take_take, Nat.min_eq_left h]
  simp

theorem store_take_of_le {α : Type} (buf w : List α) (off k : Nat) (h : k ≤ off) :
    (store buf off w).take k = buf.take k := by
  unfold store
  rw [List.take_take, List.append_assoc]
  by_cases hk : k ≤ buf.length
  · rw [Nat.min_eq_left hk, List.take_append_of_le_length (by simp; omega), List.take_take,
      Nat.min_eq_left h]
  · have hk1 : buf.length < k := by omega
    rw [Nat.min_eq_right (by omega), List.take_append_of_le_length (by simp; omega),
      List.take_take, List.take_of_length_le (by omega), List.take_of_length_le (by omega)]

theorem resize_take_of_le {α : Type} (fill : α) (s : List α) (n k : Nat) (h : k ≤ n)
    (hs : k ≤ s.length) : (resize fill s n).take k = s.take k := by
  unfold resize
  rw [List.take_append_of_le_length (by simp; omega), List.take_take, Nat.min_eq_left h]

theorem store_take_end {α : Type} (buf w : List α) (off : Nat) (h : off + w.length ≤ buf.length) :
    (store buf off w).take (off + w.length) = buf.take off ++ w := by
  unfold store
  rw [List.take_take, Nat.min_eq_left h]
  exact List.take_left' (by simp only [List.length_append, List.length_take]; omega)

/-- What lies at offset `off` in a buffer whose first `off + w.length` cells are `p ++ w`. -/
theorem drop_take_of_take_eq {α : Type} (l p w : List α) (off : Nat) (hp : p.length = off)
    (h : l.take (off + w.length) = p ++ w) : (l.drop off).take w.length = w := by
  have e : (l.take (off + w.length)).drop off = (l.drop off).take w.length := by
    rw [List.drop_take, Nat.add_sub_cancel_left]
  rw [← e, h, ← hp, List.drop_left]

/-- The cells written by `store` inside the buffer hold what was written. -/
theorem store_drop_take {α : Type} (buf w : List α) (off : Nat)
    (h : off + w.length ≤ buf.length) : ((store buf off w).drop off).take w.length = w :=
  drop_take_of_take_eq _ (buf.take off) w off (by rw [List.length_take]; omega)
    (store_take_end buf w off h)

/-- The first 8 bytes of the string `LZ4_Compress` and `LZ4HC_Compress` leave behind are the
object representation of `length`, whatever the compressor stored behind them. -/
theorem lz4_frame_header (output w : List Byte) (n cap : Nat) (h : 8 ≤ cap) :
    (store (store (resize 0 output cap) 0 (size_t_bytes n)) 8 w).take 8 = size_t_bytes n := by
  rw [store_take_of_le _ _ _ _ (le_refl 8)]
  have := store_zero_take (resize 0 output cap) (size_t_bytes n)
    (by rw [resize_length, size_t_bytes_length]; exact h)
  rw [size_t_bytes_length] at this
  exact this

theorem read_int_of_take8 (l : List Byte) (n : Nat) (h : l.take 8 = size_t_bytes n) :
    read_int l = to_int n := by
  rw [← read_int_take, ← read_int_size_t_bytes, ← read_int_take (size_t_bytes n), ← h,
    List.take_take]
  rfl

/-- The length field of the frame written for an input of `n` bytes reads back as
`static_cast<int>(n)`, when the library's bound and byte count are not negative. -/
theorem lz4_frame_field (output w : List Byte) (n : Nat) (bound outlen : Int)
    (hb : nonneg_int bound) (ho : nonneg_int outlen) :
    read_int (store (store (resize 0 output (to_size_t (8 + bound))) 0 (size_t_bytes n)) 8 w)
      = to_int n ∧
    read_int (resize 0 (store (store (resize 0 output (to_size_t (8 + bound))) 0
      (size_t_bytes n)) 8 w) (to_size_t (8 + outlen))) = to_int n := by
  rw [to_size_t_of_nonneg_int hb, to_size_t_of_nonneg_int ho]
  have h8 := lz4_frame_header output w n (8 + bound.toNat) (by omega)
  refine ⟨read_int_of_take8 _ _ h8, read_int_of_take8 _ _ ?_⟩
  rw [resize_take_of_le _ _ _ _ (by omega) (by rw [store_length, store_length, resize_length]; omega)]
  exact h8

theorem LZ4_Compress_field (eng : LZ4Engine) (input output : List Byte)
    (hb : nonneg_int (eng.LZ4_compressBound (to_int input.length)))
    (ho : nonneg_int (eng.LZ4_compress_limitedOutput input (to_int input.length)
      (eng.LZ4_compressBound (to_int input.length))).1) :
    read_int (LZ4_Compress true eng input output).output = to_int input.length ∧
    8 ≤ (LZ4_Compress true eng input output).output.length := by
  unfold LZ4_Compress
  simp only [↓reduceIte]
  split
  · refine ⟨(lz4_frame_field output _ _ _ _ hb ho).1, ?_⟩
    rw [store_length, store_length, resize_length, to_size_t_of_nonneg_int hb]
    omega
  · refine ⟨(lz4_frame_field output _ _ _ _ hb ho).2, ?_⟩
    rw [resize_length, to_size_t_of_nonneg_int ho]
    omega

theorem LZ4HC_Compress_field (eng : LZ4Engine) (v : Bool) (opts : CompressionOptions)
    (input output : List Byte)
    (hb : nonneg_int (eng.LZ4_compressBound (to_int input.length)))
    (h2 : nonneg_int (eng.LZ4_compressHC2_limitedOutput input (to_int input.length)
      (eng.LZ4_compressBound (to_int input.length)) opts.level).1)
    (h3 : nonneg_int (eng.LZ4_compressHC_limitedOutput input (to_int input.length)
      (eng.LZ4_compressBound (to_int input.length))).1) :
    read_int (LZ4HC_Compress true v eng opts input output).output = to_int input.length ∧
    8 ≤ (LZ4HC_Compress true v eng opts input output).output.length := by
  unfold LZ4HC_Compress
  cases v
  · simp only [↓reduceIte, Bool.false_eq_true]
    split
    · refine ⟨(lz4_frame_field output _ _ _ _ hb h3).1, ?_⟩
      rw [store_length, store_length, resize_length, to_size_t_of_nonneg_int hb]
      omega
    · refine ⟨(lz4_frame_field output _ _ _ _ hb h3).2, ?_⟩
      rw [resize_length, to_size_t_of_nonneg_int h3]
      omega
  · simp only [↓reduceIte]
    split
    · refine ⟨(lz4_frame_field output _ _ _ _ hb h2).1, ?_⟩
      rw [store_length, store_length, resize_length, to_size_t_of_nonneg_int hb]
      omega
    · refine ⟨(lz4_frame_field output _ _ _ _ hb h2).2, ?_⟩
      rw [resize_length, to_size_t_of_nonneg_int h2]
      omega

/-- What `LZ4_Uncompress` does with a frame of at least 8 bytes whose length field is not
negative. -/
theorem LZ4_Uncompress_frame (eng : LZ4Engine) (p : List Byte) (ds : Int) (h8 : 8 ≤ p.length)
    (hn : 0 ≤ read_int p) :
    LZ4_Uncompress true eng p ds =
      if lz4_engine_count eng p < 0 then
        ⟨.value none, lz4_engine_count eng p, [.oneshot (lz4_engine_count eng p)]⟩
      else
        ⟨.value (some (store (List.replicate (read_int p).toNat none) 0
            ((eng.LZ4_decompress_safe_partial_fn (p.drop 8) (to_int (p.length - 8))
              (read_int p) (read_int p)).2.map some))),
          lz4_engine_count eng p, [.oneshot (lz4_engine_count eng p)]⟩ := by
  unfold LZ4_Uncompress lz4_engine_count
  simp only [↓reduceIte]
  rw [if_neg (by omega), if_neg (by omega)]

/-- C4 (as stated, refuted).  The length field does not read back as the input length for every
input length: for an input of `2^31` bytes it reads back as `-2147483648`, and for an input of
`2^32 + 5` bytes `LZ4_Compress` returns `true` and the field reads back as 5. -/
theorem lz4_frame_field_wraps :
    read_int (LZ4_Compress true stored_lz4 (List.replicate (2 ^ 31) 0) []).output
      = -2147483648 ∧
    (LZ4_Compress true stored_lz4 (List.replicate (2 ^ 32 + 5) 0) []).ret = .value true ∧
    read_int (LZ4_Compress true stored_lz4 (List.replicate (2 ^ 32 + 5) 0) []).output = 5 := by
  have l1 : (List.replicate (2 ^ 31) (0 : Byte)).length = 2 ^ 31 := List.length_replicate _ _
  have l2 : (List.replicate (2 ^ 32 + 5) (0 : Byte)).length = 2 ^ 32 + 5 :=
    List.length_replicate _ _
  have t1 : to_int (2 ^ 31) = -2147483648 := by decide
  have t2 : to_int (2 ^ 32 + 5) = 5 := by decide
  refine ⟨?_, ?_, ?_⟩
  · rw [(LZ4_Compress_field stored_lz4 _ [] (by rw [l1, t1]; decide)
      (by rw [l1, t1]; decide)).1, l1, t1]
  · unfold LZ4_Compress
    simp only [↓reduceIte, l2, t2]
    rw [if_neg (by decide)]
  · rw [(LZ4_Compress_field stored_lz4 _ [] (by rw [l2, t2]; decide)
      (by rw [l2, t2]; decide)).1, l2, t2]

/-- C4 (amended).  For every input shorter than `2^31` bytes and every lz4 library whose bound and
byte counts are not negative, the frame left by `LZ4_Compress` and by `LZ4HC_Compress` has at
least 8 bytes, the length field `LZ4_Uncompress` reads from it equals the input length, and
`LZ4_Uncompress` passes that length to the library as the size of its destination buffer. -/
theorem lz4_frame_integrity (eng dec : LZ4Engine) (v : Bool) (opts : CompressionOptions)
    (input output : List Byte) (ds : Int) (hn : input.length < 2 ^ 31)
    (hb : nonneg_int (eng.LZ4_compressBound (to_int input.length)))
    (h1 : nonneg_int (eng.LZ4_compress_limitedOutput input (to_int input.length)
      (eng.LZ4_compressBound (to_int input.length))).1)
    (h2 : nonneg_int (eng.LZ4_compressHC2_limitedOutput input (to_int input.length)
      (eng.LZ4_compressBound (to_int input.length)) opts.level).1)
    (h3 : nonneg_int (eng.LZ4_compressHC_limitedOutput input (to_int input.length)
      (eng.LZ4_compressBound (to_int input.length))).1) :
    (read_int (LZ4_Compress true eng input output).output = input.length ∧
      (LZ4_Uncompress true dec (LZ4_Compress true eng input output).output ds).events =
        [.oneshot (dec.LZ4_decompress_safe_partial_fn
          ((LZ4_Compress true eng input output).output.drop 8)
          (to_int ((LZ4_Compress true eng input output).output.length - 8))
          input.length input.length).1]) ∧
    (read_int (LZ4HC_Compress true v eng opts input output).output = input.length ∧
      (LZ4_Uncompress true dec (LZ4HC_Compress true v eng opts input output).output ds).events =
        [.oneshot (dec.LZ4_decompress_safe_partial_fn
          ((LZ4HC_Compress true v eng opts input output).output.drop 8)
          (to_int ((LZ4HC_Compress true v eng opts input output).output.length - 8))
          input.length input.length).1]) := by
  obtain ⟨f1, g1⟩ := LZ4_Compress_field eng input output hb h1
  obtain ⟨f2, g2⟩ := LZ4HC_Compress_field eng v opts input output hb h2 h3
  rw [to_int_of_lt hn] at f1 f2
  refine ⟨⟨f1, ?_⟩, ⟨f2, ?_⟩⟩
  · rw [LZ4_Uncompress_frame dec _ ds g1 (by rw [f1]; omega)]
    unfold lz4_engine_count
    rw [f1]
    split <;> rfl
  · rw [LZ4_Uncompress_frame dec _ ds g2 (by rw [f2]; omega)]
    unfold lz4_engine_count
    rw [f2]
    split <;> rfl

/-- Witness for C4: a 5-byte input and the storing lz4 library. -/
theorem lz4_frame_integrity_witness :
    (read_int (LZ4_Compress true stored_lz4 [104, 101, 108, 108, 111] []).output
        = ([104, 101, 108, 108, 111] : List Byte).length ∧
      (LZ4_Uncompress true stored_lz4
          (LZ4_Compress true stored_lz4 [104, 101, 108, 108, 111] []).output 0).events =
        [.oneshot (stored_lz4.LZ4_decompress_safe_partial_fn
          ((LZ4_Compress true stored_lz4 [104, 101, 108, 108, 111] []).output.drop 8)
          (to_int ((LZ4_Compress true stored_lz4 [104, 101, 108, 108, 111] []).output.length - 8))
          ([104, 101, 108, 108, 111] : List Byte).length
          ([104, 101, 108, 108, 111] : List Byte).length).1]) ∧
    (read_int (LZ4HC_Compress true true stored_lz4 ⟨-14, -1, 0⟩ [104, 101, 108, 108, 111]
        []).output = ([104, 101, 108, 108, 111] : List Byte).length ∧
      (LZ4_Uncompress true stored_lz4 (LZ4HC_Compress true true stored_lz4 ⟨-14, -1, 0⟩
          [104, 101, 108, 108, 111] []).output 0).events =
        [.oneshot (stored_lz4.LZ4_decompress_safe_partial_fn
          ((LZ4HC_Compress true true stored_lz4 ⟨-14, -1, 0⟩
            [104, 101, 108, 108, 111] []).output.drop 8)
          (to_int ((LZ4HC_Compress true true stored_lz4 ⟨-14, -1, 0⟩
            [104, 101, 108, 108, 111] []).output.length - 8))
          ([104, 101, 108, 108, 111] : List Byte).length
          ([104, 101, 108, 108, 111] : List Byte).length).1]) :=
  lz4_frame_integrity stored_lz4 stored_lz4 true ⟨-14, -1, 0⟩ [104, 101, 108, 108, 111] [] 0
    (by decide) (by decide) (by decide) (by decide) (by decide)

/-! ## Outcomes of `LZ4_Uncompress` -/

/-- C5.  The code misses the sign of `output_len`.  On the 8-byte input `00 00 00 80 00 00 00 00`
the length field reads as `-2147483648` and `new char[output_len]` (line 331) throws:
`LZ4_Uncompress` neither returns `nullptr` nor a buffer, `*decompress_size` keeps its old value 77
and the library is not called (the engine-call log is empty), so it reported no negative result.
The claim has every call return, with `nullptr` exactly for a short input or a negative library
result. -/
theorem lz4_uncompress_negative_length_throws :
    LZ4_Uncompress true stored_lz4 [0, 0, 0, 128, 0, 0, 0, 0] 77 = ⟨.threw, 77, []⟩ := by
  decide

/-- The two checks the code does make (lines 326 and 335) work as intended.  On an input that is
shorter than 8 bytes or whose length field is not negative, `LZ4_Uncompress` returns `nullptr`
exactly when the input is shorter than 8 bytes or the library reports a negative result; in every
other case it returns a buffer and `*decompress_size` is the library's byte count, whatever the
length recorded in the frame.  An input shorter than 8 bytes is rejected whatever it holds,
without a library call and with `*decompress_size` unchanged. -/
theorem lz4_uncompress_outcomes (eng : LZ4Engine) (input_data : List Byte) (ds : Int)
    (h : input_data.length < 8 ∨ 0 ≤ read_int input_data) :
    ((LZ4_Uncompress true eng input_data ds).ret = .value none ↔
      (input_data.length < 8 ∨ lz4_engine_count eng input_data < 0)) ∧
    (¬ (input_data.length < 8 ∨ lz4_engine_count eng input_data < 0) →
      (∃ buf, (LZ4_Uncompress true eng input_data ds).ret = .value (some buf)) ∧
      (LZ4_Uncompress true eng input_data ds).decompress_size
        = lz4_engine_count eng input_data) ∧
    (input_data.length < 8 → LZ4_Uncompress true eng input_data ds = ⟨.value none, ds, []⟩) := by
  by_cases h8 : input_data.length < 8
  · have e : LZ4_Uncompress true eng input_data ds = ⟨.value none, ds, []⟩ := by
      unfold LZ4_Uncompress
      simp only [↓reduceIte]
      rw [if_pos h8]
    refine ⟨?_, ?_, fun _ => e⟩
    · rw [e]
      exact ⟨fun _ => Or.inl h8, fun _ => rfl⟩
    · intro hc
      exact absurd (Or.inl h8) hc
  · have hn : 0 ≤ read_int input_data := h.resolve_left h8
    rw [LZ4_Uncompress_frame eng input_data ds (by omega) hn]
    refine ⟨?_, ?_, fun hh => absurd hh h8⟩
    · by_cases hc : lz4_engine_count eng input_data < 0
      · rw [if_pos hc]
        exact ⟨fun _ => Or.inr hc, fun _ => rfl⟩
      · rw [if_neg hc]
        constructor
        · intro hh
          cases hh
        · intro hh
          rcases hh with hh | hh
          · exact absurd hh h8
          · exact absurd hh hc
    · intro hc
      have hc2 : ¬ lz4_engine_count eng input_data < 0 := fun hh => hc (Or.inr hh)
      rw [if_neg hc2]
      exact ⟨⟨_, rfl⟩, rfl⟩

/-- An instance of `lz4_uncompress_outcomes`: a frame that records 9 bytes and holds 2; the
library reports 2. -/
theorem lz4_uncompress_outcomes_witness :
    ((LZ4_Uncompress true stored_lz4 [9, 0, 0, 0, 0, 0, 0, 0, 104, 105] 77).ret = .value none ↔
      (([9, 0, 0, 0, 0, 0, 0, 0, 104, 105] : List Byte).length < 8 ∨
        lz4_engine_count stored_lz4 [9, 0, 0, 0, 0, 0, 0, 0, 104, 105] < 0)) ∧
    (¬ (([9, 0, 0, 0, 0, 0, 0, 0, 104, 105] : List Byte).length < 8 ∨
        lz4_engine_count stored_lz4 [9, 0, 0, 0, 0, 0, 0, 0, 104, 105] < 0) →
      (∃ buf, (LZ4_Uncompress true stored_lz4 [9, 0, 0, 0, 0, 0, 0, 0, 104, 105] 77).ret
        = .value (some buf)) ∧
      (LZ4_Uncompress true stored_lz4 [9, 0, 0, 0, 0, 0, 0, 0, 104, 105] 77).decompress_size
        = lz4_engine_count stored_lz4 [9, 0, 0, 0, 0, 0, 0, 0, 104, 105]) ∧
    (([9, 0, 0, 0, 0, 0, 0, 0, 104, 105] : List Byte).length < 8 →
      LZ4_Uncompress true stored_lz4 [9, 0, 0, 0, 0, 0, 0, 0, 104, 105] 77
        = ⟨.value none, 77, []⟩) :=
  lz4_uncompress_outcomes stored_lz4 [9, 0, 0, 0, 0, 0, 0, 0, 104, 105] 77
    (Or.inr (by decide))

/-! ## The loops, one iteration at a time -/

theorem zlib_loop_succ {σ α : Type} (step : σ → List Byte → Nat → Reply σ) (input : List Byte)
    (fill : α) (inj : Byte → α) (fuel : Nat) (strm : z_stream σ) (buf : List α) :
    zlib_loop step input fill inj (fuel + 1) strm buf =
      if (engine_reply step input strm).status = Z_STREAM_END then
        (.finished (advance strm (engine_reply step input strm))
          (stored inj strm buf (engine_reply step input strm)),
          [call_event strm buf (engine_reply step input strm)])
      else if (engine_reply step input strm).status = Z_OK then
        ((zlib_loop step input fill inj fuel
            (grow_strm zlib_new_sz (advance strm (engine_reply step input strm))
              (stored inj strm buf (engine_reply step input strm)))
            (grow_buf zlib_new_sz fill (stored inj strm buf (engine_reply step input strm)))).1,
          call_event strm buf (engine_reply step input strm) ::
          (zlib_loop step input fill inj fuel
            (grow_strm zlib_new_sz (advance strm (engine_reply step input strm))
              (stored inj strm buf (engine_reply step input strm)))
            (grow_buf zlib_new_sz fill (stored inj strm buf (engine_reply step input strm)))).2)
      else
        (.failed (advance strm (engine_reply step input strm))
          (stored inj strm buf (engine_reply step input strm)),
          [call_event strm buf (engine_reply step input strm)]) := rfl

theorem bzip2_loop_zero {σ α : Type} (more : Int) (step : σ → List Byte → Nat → Reply σ)
    (input : List Byte) (fill : α) (inj : Byte → α) (strm : z_stream σ) (buf : List α) :
    bzip2_loop more step input fill inj 0 strm buf =
      if strm.avail_in ≠ 0 then (.running strm buf, []) else (.finished strm buf, []) := rfl

theorem bzip2_loop_succ {σ α : Type} (more : Int) (step : σ → List Byte → Nat → Reply σ)
    (input : List Byte) (fill : α) (inj : Byte → α) (fuel : Nat) (strm : z_stream σ)
    (buf : List α) :
    bzip2_loop more step input fill inj (fuel + 1) strm buf =
      if strm.avail_in ≠ 0 then
        if (engine_reply step input strm).status = BZ_STREAM_END then
          ((bzip2_loop more step input fill inj fuel
              (advance strm (engine_reply step input strm))
              (stored inj strm buf (engine_reply step input strm))).1,
            call_event strm buf (engine_reply step input strm) ::
            (bzip2_loop more step input fill inj fuel
              (advance strm (engine_reply step input strm))
              (stored inj strm buf (engine_reply step input strm))).2)
        else if (engine_reply step input strm).status = more then
          ((bzip2_loop more step input fill inj fuel
              (grow_strm bzip2_new_sz (advance strm (engine_reply step input strm))
                (stored inj strm buf (engine_reply step input strm)))
              (grow_buf bzip2_new_sz fill
                (stored inj strm buf (engine_reply step input strm)))).1,
            call_event strm buf (engine_reply step input strm) ::
            (bzip2_loop more step input fill inj fuel
              (grow_strm bzip2_new_sz (advance strm (engine_reply step input strm))
                (stored inj strm buf (engine_reply step input strm)))
              (grow_buf bzip2_new_sz fill
                (stored inj strm buf (engine_reply step input strm)))).2)
        else
          (.failed (advance strm (engine_reply step input strm))
            (stored inj strm buf (engine_reply step input strm)),
            [call_event strm buf (engine_reply step input strm)])
      else (.finished strm buf, []) := rfl

theorem stored_length {σ α : Type} (inj : Byte → α) (strm : z_stream σ) (buf : List α)
    (r : Reply σ) : (stored inj strm buf r).length = buf.length := store_length _ _ _

theorem grow_buf_length {α : Type} (new_sz : Nat → Nat) (fill : α) (buf : List α) :
    (grow_buf new_sz fill buf).length = new_sz buf.length := resize_length _ _ _

theorem zlib_new_sz_gt (sz : Nat) : sz < zlib_new_sz sz := by
  unfold zlib_new_sz
  dsimp only
  split <;> omega

theorem bzip2_new_sz_ge (sz : Nat) : sz ≤ bzip2_new_sz sz := by
  unfold bzip2_new_sz scale_12
  omega

/-! ## A failed call leaves the working buffer behind -/

theorem zlib_loop_failed {σ α : Type} (step : σ → List Byte → Nat → Reply σ) (input : List Byte)
    (fill : α) (inj : Byte → α) (fuel : Nat) :
    ∀ (strm : z_stream σ) (buf : List α) (s' : z_stream σ) (b' : List α) (evs : List Event),
      zlib_loop step input fill inj fuel strm buf = (.failed s' b', evs) →
      ∃ c pre, evs = pre ++ [.stream c] ∧ b'.length = c.size ∧ buf.length ≤ c.size := by
  induction fuel with
  | zero =>
    intro strm buf s' b' evs h
    simp [zlib_loop] at h
  | succ fuel ih =>
    intro strm buf s' b' evs h
    rw [zlib_loop_succ] at h
    split at h
    · simp at h
    · split at h
      · obtain ⟨h1, h2⟩ := Prod.mk.inj h
        obtain ⟨c, pre, e1, e2, e3⟩ := ih _ _ s' b' _ (Prod.ext h1 rfl)
        refine ⟨c, call_event strm buf (engine_reply step input strm) :: pre, ?_, e2, ?_⟩
        · rw [← h2]
          exact congrArg (List.cons _) e1
        · rw [grow_buf_length, stored_length] at e3
          exact le_trans (le_of_lt (zlib_new_sz_gt _)) e3
      · obtain ⟨h1, h2⟩ := Prod.mk.inj h
        injection h1 with h3 h4
        refine ⟨⟨strm.next_out, strm.avail_out, buf.length, (engine_reply step input strm).status,
          (engine_reply step input strm).written⟩, [], ?_, ?_, le_refl _⟩
        · rw [← h2]
          rfl
        · rw [← h4, stored_length]

theorem bzip2_loop_failed {σ α : Type} (more : Int) (step : σ → List Byte → Nat → Reply σ)
    (input : List Byte) (fill : α) (inj : Byte → α) (fuel : Nat) :
    ∀ (strm : z_stream σ) (buf : List α) (s' : z_stream σ) (b' : List α) (evs : List Event),
      bzip2_loop more step input fill inj fuel strm buf = (.failed s' b', evs) →
      ∃ c pre, evs = pre ++ [.stream c] ∧ b'.length = c.size ∧ buf.length ≤ c.size := by
  induction fuel with
  | zero =>
    intro strm buf s' b' evs h
    rw [bzip2_loop_zero] at h
    split at h <;> simp at h
  | succ fuel ih =>
    intro strm buf s' b' evs h
    rw [bzip2_loop_succ] at h
    split at h
    · split at h
      · obtain ⟨h1, h2⟩ := Prod.mk.inj h
        obtain ⟨c, pre, e1, e2, e3⟩ := ih _ _ s' b' _ (Prod.ext h1 rfl)
        refine ⟨c, call_event strm buf (engine_reply step input strm) :: pre, ?_, e2, ?_⟩
        · rw [← h2]
          exact congrArg (List.cons _) e1
        · rw [stored_length] at e3
          exact e3
      · split at h
        · obtain ⟨h1, h2⟩ := Prod.mk.inj h
          obtain ⟨c, pre, e1, e2, e3⟩ := ih _ _ s' b' _ (Prod.ext h1 rfl)
          refine ⟨c, call_event strm buf (engine_reply step input strm) :: pre, ?_, e2, ?_⟩
          · rw [← h2]
            exact congrArg (List.cons _) e1
          · rw [grow_buf_length, stored_length] at e3
            exact le_trans (bzip2_new_sz_ge _) e3
        · obtain ⟨h1, h2⟩ := Prod.mk.inj h
          injection h1 with h3 h4
          refine ⟨⟨strm.next_out, strm.avail_out, buf.length, (engine_reply step input strm).status,
          (engine_reply step input strm).written⟩, [], ?_, ?_, le_refl _⟩
          · rw [← h2]
            rfl
          · rw [← h4, stored_length]
    · simp at h

/-- The loop of the Zlib adapters never touches the cells below the output cursor. -/
theorem zlib_loop_keeps {σ α : Type} (step : σ → List Byte → Nat → Reply σ) (input : List Byte)
    (fill : α) (inj : Byte → α) (fuel : Nat) :
    ∀ (strm : z_stream σ) (buf : List α) (k : Nat), k ≤ strm.next_out → k ≤ buf.length →
      (zlib_loop step input fill inj fuel strm buf).1.buf.take k = buf.take k := by
  induction fuel with
  | zero =>
    intro strm buf k _ _
    rfl
  | succ fuel ih =>
    intro strm buf k h1 h2
    rw [zlib_loop_succ]
    split
    · exact store_take_of_le _ _ _ _ h1
    · split
      · show (zlib_loop step input fill inj fuel _ _).1.buf.take k = buf.take k
        rw [ih _ _ k (by show k ≤ (stored inj strm buf _).length; rw [stored_length]; exact h2)
          (by rw [grow_buf_length, stored_length]; exact le_trans h2 (le_of_lt (zlib_new_sz_gt _)))]
        unfold grow_buf
        rw [resize_take_of_le _ _ _ _
          (by rw [stored_length]; exact le_trans h2 (le_of_lt (zlib_new_sz_gt _)))
          (by rw [stored_length]; exact h2)]
        exact store_take_of_le _ _ _ _ h1
      · exact store_take_of_le _ _ _ _ h1

/-- The loop of the BZip2 adapters never touches the cells below the output cursor. -/
theorem bzip2_loop_keeps {σ α : Type} (more : Int) (step : σ → List Byte → Nat → Reply σ)
    (input : List Byte) (fill : α) (inj : Byte → α) (fuel : Nat) :
    ∀ (strm : z_stream σ) (buf : List α) (k : Nat), k ≤ strm.next_out → k ≤ buf.length →
      (bzip2_loop more step input fill inj fuel strm buf).1.buf.take k = buf.take k := by
  induction fuel with
  | zero =>
    intro strm buf k _ _
    rw [bzip2_loop_zero]
    split <;> rfl
  | succ fuel ih =>
    intro strm buf k h1 h2
    rw [bzip2_loop_succ]
    split
    · split
      · show (bzip2_loop more step input fill inj fuel _ _).1.buf.take k = buf.take k
        rw [ih _ _ k (by show k ≤ strm.next_out + _; omega) (by rw [stored_length]; exact h2)]
        exact store_take_of_le _ _ _ _ h1
      · split
        · show (bzip2_loop more step input fill inj fuel _ _).1.buf.take k = buf.take k
          rw [ih _ _ k (by show k ≤ (stored inj strm buf _).length; rw [stored_length]; exact h2)
            (by rw [grow_buf_length, stored_length]; exact le_trans h2 (bzip2_new_sz_ge _))]
          unfold grow_buf
          rw [resize_take_of_le _ _ _ _
            (by rw [stored_length]; exact le_trans h2 (bzip2_new_sz_ge _))
            (by rw [stored_length]; exact h2)]
          exact store_take_of_le _ _ _ _ h1
        · exact store_take_of_le _ _ _ _ h1
    · rfl

/-- The working buffer right after an engine call that stored inside it: up to the end of the
stored bytes it is the old contents below the cursor, then the stored bytes. -/
theorem stored_take_end {σ α : Type} (inj : Byte → α) (strm : z_stream σ) (buf : List α)
    (r : Reply σ) (h : strm.next_out + r.written.length ≤ buf.length) :
    (stored inj strm buf r).take (strm.next_out + r.written.length)
      = buf.take strm.next_out ++ r.written.map inj := by
  have := store_take_end buf (r.written.map inj) strm.next_out
    (by rw [List.length_map]; exact h)
  rw [List.length_map] at this
  exact this

/-- Reading an engine call back from its record. -/
theorem call_event_inj {σ α : Type} (strm : z_stream σ) (buf : List α) (r : Reply σ) (c : Call)
    (h : Event.stream c = call_event strm buf r) :
    c.next_out = strm.next_out ∧ c.size = buf.length ∧ c.written = r.written := by
  unfold call_event at h
  injection h with h
  subst h
  exact ⟨rfl, rfl, rfl⟩

/-- The cells an engine call stored inside the buffer, read back from a later buffer that agrees
with the buffer after the call up to the end of those cells. -/
theorem stored_read_back {σ α : Type} (inj : Byte → α) (strm : z_stream σ) (buf later : List α)
    (r : Reply σ) (c : Call) (e : Event.stream c = call_event strm buf r)
    (hw : c.next_out + c.written.length ≤ c.size)
    (hl : later.take (strm.next_out + r.written.length)
      = (stored inj strm buf r).take (strm.next_out + r.written.length)) :
    (later.drop c.next_out).take c.written.length = c.written.map inj := by
  obtain ⟨e1, e2, e3⟩ := call_event_inj _ _ _ _ e
  rw [e1, e2, e3] at hw
  rw [e1, e3]
  rw [stored_take_end inj strm buf r hw] at hl
  have := drop_take_of_take_eq later (buf.take strm.next_out) (r.written.map inj)
    strm.next_out (by rw [List.length_take]; omega)
    (by rw [List.length_map]; exact hl)
  rw [List.length_map] at this
  exact this

/-- The bound of an engine call that stored inside its buffer, read from its record. -/
theorem call_event_fits {σ α : Type} (strm : z_stream σ) (buf : List α) (r : Reply σ) (c : Call)
    (e : Event.stream c = call_event strm buf r) (hw : c.next_out + c.written.length ≤ c.size) :
    strm.next_out + r.written.length ≤ buf.length := by
  obtain ⟨e1, e2, e3⟩ := call_event_inj _ _ _ _ e
  rw [e1, e2, e3] at hw
  exact hw

/-- The buffer a Zlib loop ends with holds, for every engine call that stored its bytes inside
the buffer it was offered, those bytes at the offset where they were stored. -/
theorem zlib_loop_holds {σ α : Type} (step : σ → List Byte → Nat → Reply σ) (input : List Byte)
    (fill : α) (inj : Byte → α) (fuel : Nat) :
    ∀ (strm : z_stream σ) (buf : List α) (c : Call),
      Event.stream c ∈ (zlib_loop step input fill inj fuel strm buf).2 →
      c.next_out + c.written.length ≤ c.size →
      ((zlib_loop step input fill inj fuel strm buf).1.buf.drop c.next_out).take c.written.length
        = c.written.map inj := by
  induction fuel with
  | zero =>
    intro strm buf c hc _
    simp [zlib_loop] at hc
  | succ fuel ih =>
    intro strm buf c hc hw
    rw [zlib_loop_succ] at hc ⊢
    by_cases h1 : (engine_reply step input strm).status = Z_STREAM_END
    · rw [if_pos h1] at hc ⊢
      rw [List.mem_singleton] at hc
      exact stored_read_back inj strm buf _ _ c hc hw rfl
    · rw [if_neg h1] at hc ⊢
      by_cases h2 : (engine_reply step input strm).status = Z_OK
      · rw [if_pos h2] at hc ⊢
        rcases List.mem_cons.mp hc with e | hin
        · have hf := call_event_fits _ _ _ _ e hw
          refine stored_read_back inj strm buf _ _ c e hw ?_
          show (zlib_loop step input fill inj fuel _ _).1.buf.take _ = _
          rw [zlib_loop_keeps step input fill inj fuel _ _ _
            (by show _ ≤ (stored inj strm buf _).length; rw [stored_length]; exact hf)
            (by rw [grow_buf_length, stored_length]
                exact le_trans hf (le_of_lt (zlib_new_sz_gt _)))]
          unfold grow_buf
          exact resize_take_of_le _ _ _ _
            (by rw [stored_length]; exact le_trans hf (le_of_lt (zlib_new_sz_gt _)))
            (by rw [stored_length]; exact hf)
        · exact ih _ _ c hin hw
      · rw [if_neg h2] at hc ⊢
        rw [List.mem_singleton] at hc
        exact stored_read_back inj strm buf _ _ c hc hw rfl

/-- The buffer a BZip2 loop ends with holds, for every engine call that stored its bytes inside
the buffer it was offered, those bytes at the offset where they were stored. -/
theorem bzip2_loop_holds {σ α : Type} (more : Int) (step : σ → List Byte → Nat → Reply σ)
    (input : List Byte) (fill : α) (inj : Byte → α) (fuel : Nat) :
    ∀ (strm : z_stream σ) (buf : List α) (c : Call),
      Event.stream c ∈ (bzip2_loop more step input fill inj fuel strm buf).2 →
      c.next_out + c.written.length ≤ c.size →
      ((bzip2_loop more step input fill inj fuel strm buf).1.buf.drop c.next_out).take
        c.written.length = c.written.map inj := by
  induction fuel with
  | zero =>
    intro strm buf c hc _
    rw [bzip2_loop_zero] at hc
    split at hc <;> simp at hc
  | succ fuel ih =>
    intro strm buf c hc hw
    rw [bzip2_loop_succ] at hc ⊢
    by_cases h0 : strm.avail_in ≠ 0
    · rw [if_pos h0] at hc ⊢
      by_cases h1 : (engine_reply step input strm).status = BZ_STREAM_END
      · rw [if_pos h1] at hc ⊢
        rcases List.mem_cons.mp hc with e | hin
        · have hf := call_event_fits _ _ _ _ e hw
          refine stored_read_back inj strm buf _ _ c e hw ?_
          show (bzip2_loop more step input fill inj fuel _ _).1.buf.take _ = _
          exact bzip2_loop_keeps more step input fill inj fuel _ _ _ (le_refl _)
            (by rw [stored_length]; exact hf)
        · exact ih _ _ c hin hw
      · rw [if_neg h1] at hc ⊢
        by_cases h2 : (engine_reply step input strm).status = more
        · rw [if_pos h2] at hc ⊢
          rcases List.mem_cons.mp hc with e | hin
          · have hf := call_event_fits _ _ _ _ e hw
            refine stored_read_back inj strm buf _ _ c e hw ?_
            show (bzip2_loop more step input fill inj fuel _ _).1.buf.take _ = _
            rw [bzip2_loop_keeps more step input fill inj fuel _ _ _
              (by show _ ≤ (stored inj strm buf _).length; rw [stored_length]; exact hf)
              (by rw [grow_buf_length, stored_length]
                  exact le_trans hf (bzip2_new_sz_ge _))]
            unfold grow_buf
            exact resize_take_of_le _ _ _ _
              (by rw [stored_length]; exact le_trans hf (bzip2_new_sz_ge _))
              (by rw [stored_length]; exact hf)
          · exact ih _ _ c hin hw
        · rw [if_neg h2] at hc ⊢
          rw [List.mem_singleton] at hc
          exact stored_read_back inj strm buf _ _ c hc hw rfl
    · rw [if_neg h0] at hc ⊢
      simp at hc

/-- C6 (as stated, refuted).  After a failure inside the engine the caller's string is neither what
it was nor empty.  `LZ4_Compress` and `LZ4HC_Compress` on a 3-byte input with a 2-byte bound
return `false` and leave 10 bytes: the frame header and the two bytes the compressor stored.
`Zlib_Compress` and `BZip2_Compress`, with an engine that fills the 3 bytes offered, asks for
more space and then fails, return `false` and leave the 13 (resp. 3) bytes of the working
buffer. -/
theorem failure_keeps_partial_output :
    LZ4_Compress true cramped_lz4 [1, 2, 3] [9]
      = ⟨.value false, [3, 0, 0, 0, 0, 0, 0, 0, 1, 2], [.oneshot 2, .oneshot 0]⟩ ∧
    LZ4HC_Compress true true cramped_lz4 ⟨-14, -1, 0⟩ [1, 2, 3] [9]
      = ⟨.value false, [3, 0, 0, 0, 0, 0, 0, 0, 1, 2], [.oneshot 2, .oneshot 0]⟩ ∧
    (Zlib_Compress true deflate_failing_midway 5 ⟨-14, -1, 0⟩ [1, 2, 3] [9]).ret
      = .value false ∧
    (Zlib_Compress true deflate_failing_midway 5 ⟨-14, -1, 0⟩ [1, 2, 3] [9]).output
      = [7, 8, 9, 0, 0, 0, 0, 0, 0, 0, 0, 0, 0] ∧
    (BZip2_Compress true bz_compress_failing_midway 5 [1, 2, 3] [9]).ret = .value false ∧
    (BZip2_Compress true bz_compress_failing_midway 5 [1, 2, 3] [9]).output = [7, 8, 9] := by
  decide

/-- C6 (amended).  A failure before the engine is started (an init status other than OK) leaves
the caller's string as it was.  A failure after that does not restore or clear it.
`Zlib_Compress` and `BZip2_Compress` leave the working buffer: its length is the capacity offered
at the failing engine call (the last one), which is at least the input length, and for every
engine call that stored its bytes inside the buffer it was offered, the string still holds those
bytes at the offset where they were stored.  `LZ4_Compress` and `LZ4HC_Compress` leave the string
at the `8 + compressBound` bytes they resized it to: when that is at least 8 bytes it starts with
the 8-byte length header, and when the bytes the compressor stored fit behind the header they
follow it. -/
theorem failure_leaves_working_buffer {σ₁ σ₂ : Type} (zd : StreamEngine DeflateArgs σ₁)
    (bc : StreamEngine BzCompressArgs σ₂) (lz4 : LZ4Engine) (fuel : Nat)
    (opts : CompressionOptions) (v : Bool) (input output : List Byte) :
    ((zd.init ⟨opts.level, Z_DEFLATED, opts.window_bits, 8, opts.strategy⟩).1 ≠ Z_OK →
      (Zlib_Compress true zd fuel opts input output).ret = .value false ∧
      (Zlib_Compress true zd fuel opts input output).output = output) ∧
    ((zd.init ⟨opts.level, Z_DEFLATED, opts.window_bits, 8, opts.strategy⟩).1 = Z_OK →
      (Zlib_Compress true zd fuel opts input output).ret = .value false →
      (∃ c pre, (Zlib_Compress true zd fuel opts input output).events = pre ++ [.stream c] ∧
        (Zlib_Compress true zd fuel opts input output).output.length = c.size ∧
        input.length ≤ c.size) ∧
      (∀ c : Call, Event.stream c ∈ (Zlib_Compress true zd fuel opts input output).events →
        c.next_out + c.written.length ≤ c.size →
        ((Zlib_Compress true zd fuel opts input output).output.drop c.next_out).take
          c.written.length = c.written)) ∧
    ((bc.init ⟨1, 0, 30⟩).1 ≠ BZ_OK →
      (BZip2_Compress true bc fuel input output).ret = .value false ∧
      (BZip2_Compress true bc fuel input output).output = output) ∧
    ((bc.init ⟨1, 0, 30⟩).1 = BZ_OK →
      (BZip2_Compress true bc fuel input output).ret = .value false →
      (∃ c pre, (BZip2_Compress true bc fuel input output).events = pre ++ [.stream c] ∧
        (BZip2_Compress true bc fuel input output).output.length = c.size ∧
        input.length ≤ c.size) ∧
      (∀ c : Call, Event.stream c ∈ (BZip2_Compress true bc fuel input output).events →
        c.next_out + c.written.length ≤ c.size →
        ((BZip2_Compress true bc fuel input output).output.drop c.next_out).take
          c.written.length = c.written)) ∧
    ((LZ4_Compress true lz4 input output).ret = .value false →
      (LZ4_Compress true lz4 input output).output.length
        = to_size_t (8 + lz4.LZ4_compressBound (to_int input.length)) ∧
      (8 ≤ to_size_t (8 + lz4.LZ4_compressBound (to_int input.length)) →
        (LZ4_Compress true lz4 input output).output.take 8 = size_t_bytes input.length) ∧
      (8 + (lz4.LZ4_compress_limitedOutput input (to_int input.length)
            (lz4.LZ4_compressBound (to_int input.length))).2.length
          ≤ to_size_t (8 + lz4.LZ4_compressBound (to_int input.length)) →
        ((LZ4_Compress true lz4 input output).output.drop 8).take
          (lz4.LZ4_compress_limitedOutput input (to_int input.length)
            (lz4.LZ4_compressBound (to_int input.length))).2.length
          = (lz4.LZ4_compress_limitedOutput input (to_int input.length)
            (lz4.LZ4_compressBound (to_int input.length))).2)) ∧
    ((LZ4HC_Compress true v lz4 opts input output).ret = .value false →
      (LZ4HC_Compress true v lz4 opts input output).output.length
        = to_size_t (8 + lz4.LZ4_compressBound (to_int input.length)) ∧
      (8 ≤ to_size_t (8 + lz4.LZ4_compressBound (to_int input.length)) →
        (LZ4HC_Compress true v lz4 opts input output).output.take 8
          = size_t_bytes input.length) ∧
      (8 + (if v then lz4.LZ4_compressHC2_limitedOutput input (to_int input.length)
              (lz4.LZ4_compressBound (to_int input.length)) opts.level
            else lz4.LZ4_compressHC_limitedOutput input (to_int input.length)
              (lz4.LZ4_compressBound (to_int input.length))).2.length
          ≤ to_size_t (8 + lz4.LZ4_compressBound (to_int input.length)) →
        ((LZ4HC_Compress true v lz4 opts input output).output.drop 8).take
          (if v then lz4.LZ4_compressHC2_limitedOutput input (to_int input.length)
              (lz4.LZ4_compressBound (to_int input.length)) opts.level
            else lz4.LZ4_compressHC_limitedOutput input (to_int input.length)
              (lz4.LZ4_compressBound (to_int input.length))).2.length
          = (if v then lz4.LZ4_compressHC2_limitedOutput input (to_int input.length)
              (lz4.LZ4_compressBound (to_int input.length)) opts.level
            else lz4.LZ4_compressHC_limitedOutput input (to_int input.length)
              (lz4.LZ4_compressBound (to_int input.length))).2)) := by
  refine ⟨?_, ?_, ?_, ?_, ?_, ?_⟩
  · intro h
    unfold Zlib_Compress
    simp only [↓reduceIte]
    rw [if_pos h]
    exact ⟨rfl, rfl⟩
  · intro h hr
    unfold Zlib_Compress at hr ⊢
    simp only [↓reduceIte] at hr ⊢
    rw [if_neg (not_not.mpr h)] at hr ⊢
    split at hr
    · simp at hr
    · next s' b' evs heq =>
      constructor
      · obtain ⟨c, pre, e1, e2, e3⟩ := zlib_loop_failed _ _ _ _ _ _ _ _ _ _ heq
        subst e1
        rw [resize_length] at e3
        exact ⟨c, _ :: pre, rfl, e2, e3⟩
      · intro c hc hw
        have hin : Event.stream c ∈ evs := by
          rcases List.mem_cons.mp hc with e | e
          · cases e
          · exact e
        have hh := zlib_loop_holds zd.step input (0 : Byte) id fuel _ _ c
          (by rw [heq]; exact hin) hw
        rw [heq, List.map_id] at hh
        exact hh
    · simp at hr
  · intro h
    unfold BZip2_Compress
    simp only [↓reduceIte]
    rw [if_pos h]
    exact ⟨rfl, rfl⟩
  · intro h hr
    unfold BZip2_Compress at hr ⊢
    simp only [↓reduceIte] at hr ⊢
    rw [if_neg (not_not.mpr h)] at hr ⊢
    split at hr
    · simp at hr
    · next s' b' evs heq =>
      constructor
      · obtain ⟨c, pre, e1, e2, e3⟩ := bzip2_loop_failed _ _ _ _ _ _ _ _ _ _ _ heq
        subst e1
        rw [resize_length] at e3
        exact ⟨c, _ :: pre, rfl, e2, e3⟩
      · intro c hc hw
        have hin : Event.stream c ∈ evs := by
          rcases List.mem_cons.mp hc with e | e
          · cases e
          · exact e
        have hh := bzip2_loop_holds BZ_FINISH_OK bc.step input (0 : Byte) id fuel _ _ c
          (by rw [heq]; exact hin) hw
        rw [heq, List.map_id] at hh
        exact hh
    · simp at hr
  · intro hr
    unfold LZ4_Compress at hr ⊢
    simp only [↓reduceIte] at hr ⊢
    split at hr
    · next h0 =>
      rw [if_pos h0]
      exact ⟨by simp only [store_length, resize_length],
        fun h8 => lz4_frame_header _ _ _ _ h8,
        fun hw => store_drop_take _ _ 8 (by rw [store_length, resize_length]; exact hw)⟩
    · simp at hr
  · intro hr
    unfold LZ4HC_Compress at hr ⊢
    cases v
    · simp only [↓reduceIte, Bool.false_eq_true] at hr ⊢
      split at hr
      · next h0 =>
        rw [if_pos h0]
        exact ⟨by simp only [store_length, resize_length],
          fun h8 => lz4_frame_header _ _ _ _ h8,
          fun hw => store_drop_take _ _ 8 (by rw [store_length, resize_length]; exact hw)⟩
      · simp at hr
    · simp only [↓reduceIte] at hr ⊢
      split at hr
      · next h0 =>
        rw [if_pos h0]
        exact ⟨by simp only [store_length, resize_length],
          fun h8 => lz4_frame_header _ _ _ _ h8,
          fun hw => store_drop_take _ _ 8 (by rw [store_length, resize_length]; exact hw)⟩
      · simp at hr

/-- Witness for C6: engines whose init fails, engines that fail after one growth step, and an lz4
library whose bound is too small.  The 3 bytes the first engine call stored are still at offset 0
of the string; the lz4 string holds the header and the 2 bytes the compressor stored. -/
theorem failure_leaves_working_buffer_witness :
    ((Zlib_Compress true (init_failing : StreamEngine DeflateArgs _) 5 ⟨-14, -1, 0⟩ [1, 2, 3]
        [9]).ret = .value false ∧
      (Zlib_Compress true (init_failing : StreamEngine DeflateArgs _) 5 ⟨-14, -1, 0⟩ [1, 2, 3]
        [9]).output = [9]) ∧
    ((∃ c pre, (Zlib_Compress true deflate_failing_midway 5 ⟨-14, -1, 0⟩ [1, 2, 3] [9]).events
        = pre ++ [.stream c] ∧
      (Zlib_Compress true deflate_failing_midway 5 ⟨-14, -1, 0⟩ [1, 2, 3] [9]).output.length
        = c.size ∧ ([1, 2, 3] : List Byte).length ≤ c.size) ∧
      ((Zlib_Compress true deflate_failing_midway 5 ⟨-14, -1, 0⟩ [1, 2, 3] [9]).output.drop
        0).take 3 = [7, 8, 9]) ∧
    ((BZip2_Compress true (init_failing : StreamEngine BzCompressArgs _) 5 [1, 2, 3] [9]).ret
        = .value false ∧
      (BZip2_Compress true (init_failing : StreamEngine BzCompressArgs _) 5 [1, 2, 3]
        [9]).output = [9]) ∧
    ((∃ c pre, (BZip2_Compress true bz_compress_failing_midway 5 [1, 2, 3] [9]).events
        = pre ++ [.stream c] ∧
      (BZip2_Compress true bz_compress_failing_midway 5 [1, 2, 3] [9]).output.length = c.size ∧
      ([1, 2, 3] : List Byte).length ≤ c.size) ∧
      ((BZip2_Compress true bz_compress_failing_midway 5 [1, 2, 3] [9]).output.drop 0).take 3
        = [7, 8, 9]) ∧
    ((LZ4_Compress true cramped_lz4 [1, 2, 3] [9]).output.length = 10 ∧
      (LZ4_Compress true cramped_lz4 [1, 2, 3] [9]).output.take 8 = size_t_bytes 3 ∧
      ((LZ4_Compress true cramped_lz4 [1, 2, 3] [9]).output.drop 8).take 2 = [1, 2]) ∧
    ((LZ4HC_Compress true true cramped_lz4 ⟨-14, -1, 0⟩ [1, 2, 3] [9]).output.length = 10 ∧
      (LZ4HC_Compress true true cramped_lz4 ⟨-14, -1, 0⟩ [1, 2, 3] [9]).output.take 8
        = size_t_bytes 3 ∧
      ((LZ4HC_Compress true true cramped_lz4 ⟨-14, -1, 0⟩ [1, 2, 3] [9]).output.drop 8).take 2
        = [1, 2]) :=
  ⟨(failure_leaves_working_buffer init_failing init_failing cramped_lz4 5 ⟨-14, -1, 0⟩ true
      [1, 2, 3] [9]).1 (by decide),
    ⟨((failure_leaves_working_buffer deflate_failing_midway bz_compress_failing_midway
        cramped_lz4 5 ⟨-14, -1, 0⟩ true [1, 2, 3] [9]).2.1 (by decide) (by decide)).1,
      ((failure_leaves_working_buffer deflate_failing_midway bz_compress_failing_midway
        cramped_lz4 5 ⟨-14, -1, 0⟩ true [1, 2, 3] [9]).2.1 (by decide) (by decide)).2
        ⟨0, 3, 3, 0, [7, 8, 9]⟩ (by decide) (by decide)⟩,
    (failure_leaves_working_buffer init_failing init_failing cramped_lz4 5 ⟨-14, -1, 0⟩ true
      [1, 2, 3] [9]).2.2.1 (by decide),
    ⟨((failure_leaves_working_buffer deflate_failing_midway bz_compress_failing_midway
        cramped_lz4 5 ⟨-14, -1, 0⟩ true [1, 2, 3] [9]).2.2.2.1 (by decide) (by decide)).1,
      ((failure_leaves_working_buffer deflate_failing_midway bz_compress_failing_midway
        cramped_lz4 5 ⟨-14, -1, 0⟩ true [1, 2, 3] [9]).2.2.2.1 (by decide) (by decide)).2
        ⟨0, 3, 3, 3, [7, 8, 9]⟩ (by decide) (by decide)⟩,
    ⟨((failure_leaves_working_buffer deflate_failing_midway bz_compress_failing_midway
        cramped_lz4 5 ⟨-14, -1, 0⟩ true [1, 2, 3] [9]).2.2.2.2.1 (by decide)).1,
      ((failure_leaves_working_buffer deflate_failing_midway bz_compress_failing_midway
        cramped_lz4 5 ⟨-14, -1, 0⟩ true [1, 2, 3] [9]).2.2.2.2.1 (by decide)).2.1 (by decide),
      ((failure_leaves_working_buffer deflate_failing_midway bz_compress_failing_midway
        cramped_lz4 5 ⟨-14, -1, 0⟩ true [1, 2, 3] [9]).2.2.2.2.1 (by decide)).2.2 (by decide)⟩,
    ⟨((failure_leaves_working_buffer deflate_failing_midway bz_compress_failing_midway
        cramped_lz4 5 ⟨-14, -1, 0⟩ true [1, 2, 3] [9]).2.2.2.2.2 (by decide)).1,
      ((failure_leaves_working_buffer deflate_failing_midway bz_compress_failing_midway
        cramped_lz4 5 ⟨-14, -1, 0⟩ true [1, 2, 3] [9]).2.2.2.2.2 (by decide)).2.1 (by decide),
      ((failure_leaves_working_buffer deflate_failing_midway bz_compress_failing_midway
        cramped_lz4 5 ⟨-14, -1, 0⟩ true [1, 2, 3] [9]).2.2.2.2.2 (by decide)).2.2 (by decide)⟩⟩

/-! ## What the engine sees across iterations -/

theorem view_advance {σ : Type} (input : List Byte) (strm : z_stream σ) (r : Reply σ) :
    view input (advance strm r) = (view input strm).drop r.consumed := by
  unfold view advance
  simp only [List.drop_take, List.drop_drop]

theorem view_grow {σ α : Type} (new_sz : Nat → Nat) (input : List Byte) (strm : z_stream σ)
    (buf : List α) : view input (grow_strm new_sz strm buf) = view input strm := rfl

theorem buffering_bounded {ι : Type} (f : List Byte → List Byte) (ok fin zero_space : Int) :
    Bounded (buffering_engine f ok fin zero_space : StreamEngine ι _).step := by
  intro s inp a
  unfold buffering_engine
  dsimp only
  split
  · simp
  · simp only [List.length_take]
    omega

theorem scripted_progress {ι : Type} (init_status : Int) (script : List (Int × Nat × List Byte))
    (last : Int) (continuing : Int → Prop) (h : ¬ continuing last) :
    Progress (scripted_engine init_status script last : StreamEngine ι _).step continuing
      (fun s _ => s.length) := by
  intro s inp a hc
  cases s with
  | nil => exact absurd hc h
  | cons e rest => exact Nat.lt_succ_self _

/-! ## The output window -/

theorem mem_call_event {σ α : Type} (strm : z_stream σ) (buf : List α) (r : Reply σ) (c : Call)
    (h : Event.stream c = call_event strm buf r) :
    c.next_out = strm.next_out ∧ c.avail_out = strm.avail_out ∧ c.size = buf.length := by
  unfold call_event at h
  injection h with h
  subst h
  exact ⟨rfl, rfl, rfl⟩

theorem grow_window {σ α : Type} (new_sz : Nat → Nat) (fill : α) (strm : z_stream σ)
    (buf : List α) (h : buf.length ≤ new_sz buf.length) :
    (grow_strm new_sz strm buf).next_out + (grow_strm new_sz strm buf).avail_out
      ≤ (grow_buf new_sz fill buf).length := by
  rw [grow_buf_length]
  unfold grow_strm
  dsimp only
  have := to_uint_le (new_sz buf.length - buf.length)
  omega

theorem zlib_loop_window {σ α : Type} (step : σ → List Byte → Nat → Reply σ) (input : List Byte)
    (fill : α) (inj : Byte → α) (c : Call) (fuel : Nat) :
    ∀ (strm : z_stream σ) (buf : List α), strm.next_out + strm.avail_out ≤ buf.length →
      Event.stream c ∈ (zlib_loop step input fill inj fuel strm buf).2 →
      c.next_out + c.avail_out ≤ c.size := by
  induction fuel with
  | zero =>
    intro strm buf _ hc
    simp [zlib_loop] at hc
  | succ fuel ih =>
    intro strm buf h hc
    rw [zlib_loop_succ] at hc
    split at hc
    · obtain ⟨e1, e2, e3⟩ := mem_call_event _ _ _ _ (List.mem_singleton.mp hc)
      omega
    · split at hc
      · rcases List.mem_cons.mp hc with hc | hc
        · obtain ⟨e1, e2, e3⟩ := mem_call_event _ _ _ _ hc
          omega
        · exact ih _ _ (grow_window _ _ _ _ (le_of_lt (zlib_new_sz_gt _))) hc
      · obtain ⟨e1, e2, e3⟩ := mem_call_event _ _ _ _ (List.mem_singleton.mp hc)
        omega

theorem bzip2_loop_window {σ α : Type} (more : Int) (step : σ → List Byte → Nat → Reply σ)
    (hB : Bounded step) (input : List Byte) (fill : α) (inj : Byte → α) (c : Call) (fuel : Nat) :
    ∀ (strm : z_stream σ) (buf : List α), strm.next_out + strm.avail_out ≤ buf.length →
      Event.stream c ∈ (bzip2_loop more step input fill inj fuel strm buf).2 →
      c.next_out + c.avail_out ≤ c.size := by
  induction fuel with
  | zero =>
    intro strm buf _ hc
    rw [bzip2_loop_zero] at hc
    split at hc <;> simp at hc
  | succ fuel ih =>
    intro strm buf h hc
    rw [bzip2_loop_succ] at hc
    split at hc
    · split at hc
      · rcases List.mem_cons.mp hc with hc | hc
        · obtain ⟨e1, e2, e3⟩ := mem_call_event _ _ _ _ hc
          omega
        · refine ih _ _ ?_ hc
          rw [stored_length]
          have := hB strm.state (view input strm) strm.avail_out
          unfold advance engine_reply
          dsimp only
          omega
      · split at hc
        · rcases List.mem_cons.mp hc with hc | hc
          · obtain ⟨e1, e2, e3⟩ := mem_call_event _ _ _ _ hc
            omega
          · exact ih _ _ (grow_window _ _ _ _ (bzip2_new_sz_ge _)) hc
        · obtain ⟨e1, e2, e3⟩ := mem_call_event _ _ _ _ (List.mem_singleton.mp hc)
          omega
    · simp at hc

/-! ## The engine calls of the adapters are the engine calls of their loops -/

theorem Zlib_Compress_stream {σ : Type} (zd : StreamEngine DeflateArgs σ) (fuel : Nat)
    (opts : CompressionOptions) (input output : List Byte) (c : Call)
    (hc : Event.stream c ∈ (Zlib_Compress true zd fuel opts input output).events) :
    Event.stream c ∈ (zlib_loop zd.step input 0 id fuel
      ⟨0, to_uint input.length, 0, to_uint input.length,
        (zd.init ⟨opts.level, Z_DEFLATED, opts.window_bits, 8, opts.strategy⟩).2⟩
      (resize 0 output input.length)).2 := by
  unfold Zlib_Compress at hc
  simp only [↓reduceIte] at hc
  split at hc
  · simp at hc
  · split at hc <;> next heq =>
      rw [heq]
      rcases List.mem_cons.mp hc with hc | hc
      · cases hc
      · exact hc

theorem Zlib_Uncompress_stream {σ : Type} (zi : StreamEngine Int σ) (fuel : Nat)
    (input_data : List Byte) (ds windowBits : Int) (c : Call)
    (hc : Event.stream c ∈ (Zlib_Uncompress true zi fuel input_data ds windowBits).events) :
    Event.stream c ∈ (zlib_loop zi.step input_data none some fuel
      ⟨0, to_uint input_data.length, 0, to_uint (input_data.length * 5),
        (zi.init (if windowBits > 0 then windowBits + 32 else windowBits)).2⟩
      (List.replicate (input_data.length * 5) none)).2 := by
  unfold Zlib_Uncompress at hc
  generalize (if windowBits > 0 then windowBits + 32 else windowBits) = wb at hc ⊢
  simp only [↓reduceIte] at hc
  split at hc
  · simp at hc
  · split at hc <;> next heq =>
      rw [heq]
      rcases List.mem_cons.mp hc with hc | hc
      · cases hc
      · exact hc

theorem BZip2_Compress_stream {σ : Type} (bc : StreamEngine BzCompressArgs σ) (fuel : Nat)
    (input output : List Byte) (c : Call)
    (hc : Event.stream c ∈ (BZip2_Compress true bc fuel input output).events) :
    Event.stream c ∈ (bzip2_loop BZ_FINISH_OK bc.step input 0 id fuel
      ⟨0, to_uint input.length, 0, to_uint input.length, (bc.init ⟨1, 0, 30⟩).2⟩
      (resize 0 output input.length)).2 := by
  unfold BZip2_Compress at hc
  simp only [↓reduceIte] at hc
  split at hc
  · simp at hc
  · split at hc <;> next heq =>
      rw [heq]
      rcases List.mem_cons.mp hc with hc | hc
      · cases hc
      · exact hc

theorem BZip2_Uncompress_stream {σ : Type} (bd : StreamEngine BzDecompressArgs σ) (fuel : Nat)
    (input_data : List Byte) (ds : Int) (c : Call)
    (hc : Event.stream c ∈ (BZip2_Uncompress true bd fuel input_data ds).events) :
    Event.stream c ∈ (bzip2_loop BZ_OK bd.step input_data none some fuel
      ⟨0, to_uint input_data.length, 0, to_uint (input_data.length * 5), (bd.init ⟨0, 0⟩).2⟩
      (List.replicate (input_data.length * 5) none)).2 := by
  unfold BZip2_Uncompress at hc
  simp only [↓reduceIte] at hc
  split at hc
  · simp at hc
  · split at hc <;> next heq =>
      rw [heq]
      rcases List.mem_cons.mp hc with hc | hc
      · cases hc
      · exact hc

/-- C10.  At every engine call made by `Zlib_Compress`, `Zlib_Uncompress`, `BZip2_Compress` and
`BZip2_Uncompress`, with any amount of fuel, the offset of `next_out` plus `avail_out` is at most
the size of the working buffer.  The output cursor advances by the number of bytes stored by
construction of `advance`.  In the zlib adapters every call follows the initialisation or a growth
step, so nothing more is needed of the engine; the bzip2 adapters may call the engine again
without a growth step, and there the engine must never store more than `avail_out` bytes. -/
theorem output_window_invariant {σ₁ σ₂ σ₃ σ₄ : Type} (zd : StreamEngine DeflateArgs σ₁)
    (zi : StreamEngine Int σ₂) (bc : StreamEngine BzCompressArgs σ₃)
    (bd : StreamEngine BzDecompressArgs σ₄) (h₃ : Bounded bc.step) (h₄ : Bounded bd.step)
    (fuel : Nat) (opts : CompressionOptions) (input output : List Byte) (ds windowBits : Int)
    (c : Call) :
    (Event.stream c ∈ (Zlib_Compress true zd fuel opts input output).events →
      c.next_out + c.avail_out ≤ c.size) ∧
    (Event.stream c ∈ (Zlib_Uncompress true zi fuel input ds windowBits).events →
      c.next_out + c.avail_out ≤ c.size) ∧
    (Event.stream c ∈ (BZip2_Compress true bc fuel input output).events →
      c.next_out + c.avail_out ≤ c.size) ∧
    (Event.stream c ∈ (BZip2_Uncompress true bd fuel input ds).events →
      c.next_out + c.avail_out ≤ c.size) := by
  refine ⟨fun hc => ?_, fun hc => ?_, fun hc => ?_, fun hc => ?_⟩
  · refine zlib_loop_window _ _ _ _ c fuel _ _ ?_ (Zlib_Compress_stream _ _ _ _ _ _ hc)
    rw [resize_length]
    exact (Nat.zero_add _).le.trans (to_uint_le _)
  · refine zlib_loop_window _ _ _ _ c fuel _ _ ?_ (Zlib_Uncompress_stream _ _ _ _ _ _ hc)
    rw [List.length_replicate]
    exact (Nat.zero_add _).le.trans (to_uint_le _)
  · refine bzip2_loop_window _ _ h₃ _ _ _ c fuel _ _ ?_ (BZip2_Compress_stream _ _ _ _ _ hc)
    rw [resize_length]
    exact (Nat.zero_add _).le.trans (to_uint_le _)
  · refine bzip2_loop_window _ _ h₄ _ _ _ c fuel _ _ ?_ (BZip2_Uncompress_stream _ _ _ _ _ hc)
    rw [List.length_replicate]
    exact (Nat.zero_add _).le.trans (to_uint_le _)

/-- Witness for C10: the calls of the stored-block engines on 3-byte inputs. -/
theorem output_window_invariant_witness :
    (Event.stream ⟨3, 10, 13, Z_STREAM_END, [3]⟩
        ∈ (Zlib_Compress true stored_deflate 5 ⟨-14, -1, 0⟩ [1, 2, 3] []).events ∧
      (⟨3, 10, 13, Z_STREAM_END, [3]⟩ : Call).next_out
        + (⟨3, 10, 13, Z_STREAM_END, [3]⟩ : Call).avail_out
        ≤ (⟨3, 10, 13, Z_STREAM_END, [3]⟩ : Call).size) ∧
    (Event.stream ⟨0, 15, 15, Z_STREAM_END, [2, 3]⟩
        ∈ (Zlib_Uncompress true stored_inflate 5 [120, 2, 3] 0 (-14)).events ∧
      (⟨0, 15, 15, Z_STREAM_END, [2, 3]⟩ : Call).next_out
        + (⟨0, 15, 15, Z_STREAM_END, [2, 3]⟩ : Call).avail_out
        ≤ (⟨0, 15, 15, Z_STREAM_END, [2, 3]⟩ : Call).size) ∧
    (Event.stream ⟨0, 3, 3, BZ_FINISH_OK, [120, 1, 2]⟩
        ∈ (BZip2_Compress true stored_bz_compress 5 [1, 2, 3] []).events ∧
      (⟨0, 3, 3, BZ_FINISH_OK, [120, 1, 2]⟩ : Call).next_out
        + (⟨0, 3, 3, BZ_FINISH_OK, [120, 1, 2]⟩ : Call).avail_out
        ≤ (⟨0, 3, 3, BZ_FINISH_OK, [120, 1, 2]⟩ : Call).size) ∧
    (Event.stream ⟨0, 15, 15, BZ_STREAM_END, [2, 3]⟩
        ∈ (BZip2_Uncompress true stored_bz_decompress 5 [120, 2, 3] 0).events ∧
      (⟨0, 15, 15, BZ_STREAM_END, [2, 3]⟩ : Call).next_out
        + (⟨0, 15, 15, BZ_STREAM_END, [2, 3]⟩ : Call).avail_out
        ≤ (⟨0, 15, 15, BZ_STREAM_END, [2, 3]⟩ : Call).size) :=
  ⟨⟨by decide, (output_window_invariant stored_deflate stored_inflate stored_bz_compress
      stored_bz_decompress (buffering_bounded _ _ _ _) (buffering_bounded _ _ _ _) 5
      ⟨-14, -1, 0⟩ [1, 2, 3] [] 0 (-14) ⟨3, 10, 13, Z_STREAM_END, [3]⟩).1 (by decide)⟩,
    ⟨by decide, (output_window_invariant stored_deflate stored_inflate stored_bz_compress
      stored_bz_decompress (buffering_bounded _ _ _ _) (buffering_bounded _ _ _ _) 5
      ⟨-14, -1, 0⟩ [120, 2, 3] [] 0 (-14) ⟨0, 15, 15, Z_STREAM_END, [2, 3]⟩).2.1 (by decide)⟩,
    ⟨by decide, (output_window_invariant stored_deflate stored_inflate stored_bz_compress
      stored_bz_decompress (buffering_bounded _ _ _ _) (buffering_bounded _ _ _ _) 5
      ⟨-14, -1, 0⟩ [1, 2, 3] [] 0 (-14) ⟨0, 3, 3, BZ_FINISH_OK, [120, 1, 2]⟩).2.2.1 (by decide)⟩,
    ⟨by decide, (output_window_invariant stored_deflate stored_inflate stored_bz_compress
      stored_bz_decompress (buffering_bounded _ _ _ _) (buffering_bounded _ _ _ _) 5
      ⟨-14, -1, 0⟩ [120, 2, 3] [] 0 (-14) ⟨0, 15, 15, BZ_STREAM_END, [2, 3]⟩).2.2.2 (by decide)⟩⟩

/-! ## Termination -/

theorem Zlib_Compress_running {σ : Type} (zd : StreamEngine DeflateArgs σ) (fuel : Nat)
    (opts : CompressionOptions) (input output : List Byte)
    (h : (zd.init ⟨opts.level, Z_DEFLATED, opts.window_bits, 8, opts.strategy⟩).1 = Z_OK) :
    ((Zlib_Compress true zd fuel opts input output).ret = .running ↔
      (zlib_loop zd.step input 0 id fuel
        ⟨0, to_uint input.length, 0, to_uint input.length,
          (zd.init ⟨opts.level, Z_DEFLATED, opts.window_bits, 8, opts.strategy⟩).2⟩
        (resize 0 output input.length)).1.is_running = true) ∧
    (Zlib_Compress true zd fuel opts input output).events.length =
      (zlib_loop zd.step input 0 id fuel
        ⟨0, to_uint input.length, 0, to_uint input.length,
          (zd.init ⟨opts.level, Z_DEFLATED, opts.window_bits, 8, opts.strategy⟩).2⟩
        (resize 0 output input.length)).2.length + 1 := by
  unfold Zlib_Compress
  simp only [↓reduceIte]
  rw [if_neg (not_not.mpr h)]
  split <;> next heq => simp [heq, LoopExit.is_running]

theorem Zlib_Uncompress_running {σ : Type} (zi : StreamEngine Int σ) (fuel : Nat)
    (input_data : List Byte) (ds windowBits : Int)
    (h : (zi.init (if windowBits > 0 then windowBits + 32 else windowBits)).1 = Z_OK) :
    ((Zlib_Uncompress true zi fuel input_data ds windowBits).ret = .running ↔
      (zlib_loop zi.step input_data none some fuel
        ⟨0, to_uint input_data.length, 0, to_uint (input_data.length * 5),
          (zi.init (if windowBits > 0 then windowBits + 32 else windowBits)).2⟩
        (List.replicate (input_data.length * 5) none)).1.is_running = true) ∧
    (Zlib_Uncompress true zi fuel input_data ds windowBits).events.length =
      (zlib_loop zi.step input_data none some fuel
        ⟨0, to_uint input_data.length, 0, to_uint (input_data.length * 5),
          (zi.init (if windowBits > 0 then windowBits + 32 else windowBits)).2⟩
        (List.replicate (input_data.length * 5) none)).2.length + 1 := by
  unfold Zlib_Uncompress
  generalize (if windowBits > 0 then windowBits + 32 else windowBits) = wb at h ⊢
  simp only [↓reduceIte]
  rw [if_neg (not_not.mpr h)]
  split <;> next heq => simp [heq, LoopExit.is_running]

theorem BZip2_Compress_running {σ : Type} (bc : StreamEngine BzCompressArgs σ) (fuel : Nat)
    (input output : List Byte) (h : (bc.init ⟨1, 0, 30⟩).1 = BZ_OK) :
    ((BZip2_Compress true bc fuel input output).ret = .running ↔
      (bzip2_loop BZ_FINISH_OK bc.step input 0 id fuel
        ⟨0, to_uint input.length, 0, to_uint input.length, (bc.init ⟨1, 0, 30⟩).2⟩
        (resize 0 output input.length)).1.is_running = true) ∧
    (BZip2_Compress true bc fuel input output).events.length =
      (bzip2_loop BZ_FINISH_OK bc.step input 0 id fuel
        ⟨0, to_uint input.length, 0, to_uint input.length, (bc.init ⟨1, 0, 30⟩).2⟩
        (resize 0 output input.length)).2.length + 1 := by
  unfold BZip2_Compress
  simp only [↓reduceIte]
  rw [if_neg (not_not.mpr h)]
  split <;> next heq => simp [heq, LoopExit.is_running]

theorem BZip2_Uncompress_running {σ : Type} (bd : StreamEngine BzDecompressArgs σ) (fuel : Nat)
    (input_data : List Byte) (ds : Int) (h : (bd.init ⟨0, 0⟩).1 = BZ_OK) :
    ((BZip2_Uncompress true bd fuel input_data ds).ret = .running ↔
      (bzip2_loop BZ_OK bd.step input_data none some fuel
        ⟨0, to_uint input_data.length, 0, to_uint (input_data.length * 5), (bd.init ⟨0, 0⟩).2⟩
        (List.replicate (input_data.length * 5) none)).1.is_running = true) ∧
    (BZip2_Uncompress true bd fuel input_data ds).events.length =
      (bzip2_loop BZ_OK bd.step input_data none some fuel
        ⟨0, to_uint input_data.length, 0, to_uint (input_data.length * 5), (bd.init ⟨0, 0⟩).2⟩
        (List.replicate (input_data.length * 5) none)).2.length + 1 := by
  unfold BZip2_Uncompress
  simp only [↓reduceIte]
  rw [if_neg (not_not.mpr h)]
  split <;> next heq => simp [heq, LoopExit.is_running]

theorem zlib_loop_stuck {α : Type} (input : List Byte) (fill : α) (inj : Byte → α) (fuel : Nat) :
    ∀ (strm : z_stream Unit) (buf : List α),
      (zlib_loop (stuck_engine Z_OK : StreamEngine Unit Unit).step input fill inj fuel strm
        buf).1.is_running = true := by
  induction fuel with
  | zero =>
    intro strm buf
    rfl
  | succ fuel ih =>
    intro strm buf
    rw [zlib_loop_succ]
    have e : (engine_reply (stuck_engine Z_OK : StreamEngine Unit Unit).step input strm).status
        = Z_OK := rfl
    rw [if_neg (by rw [e]; decide), if_pos e]
    exact ih _ _

theorem bzip2_loop_stuck {α : Type} (more : Int) (hm : more ≠ BZ_STREAM_END) (input : List Byte)
    (fill : α) (inj : Byte → α) (fuel : Nat) :
    ∀ (strm : z_stream Unit) (buf : List α), strm.avail_in ≠ 0 →
      (bzip2_loop more (stuck_engine more : StreamEngine Unit Unit).step input fill inj fuel strm
        buf).1.is_running = true := by
  induction fuel with
  | zero =>
    intro strm buf h
    rw [bzip2_loop_zero, if_pos h]
    rfl
  | succ fuel ih =>
    intro strm buf h
    rw [bzip2_loop_succ, if_pos h]
    have e : (engine_reply (stuck_engine more : StreamEngine Unit Unit).step input strm).status
        = more := rfl
    rw [if_neg (by rw [e]; exact hm), if_pos e]
    exact ih (grow_strm bzip2_new_sz
      (advance strm (engine_reply (stuck_engine more : StreamEngine Unit Unit).step input strm))
      (stored inj strm buf
        (engine_reply (stuck_engine more : StreamEngine Unit Unit).step input strm)))
      (grow_buf bzip2_new_sz fill (stored inj strm buf
        (engine_reply (stuck_engine more : StreamEngine Unit Unit).step input strm))) h

theorem bzip2_loop_stuck_size {α : Type} (more : Int) (hm : more ≠ BZ_STREAM_END)
    (input : List Byte) (fill : α) (inj : Byte → α) (fuel : Nat) :
    ∀ (strm : z_stream Unit) (buf : List α), buf.length < 5 →
      ∀ c, Event.stream c ∈ (bzip2_loop more (stuck_engine more : StreamEngine Unit Unit).step
        input fill inj fuel strm buf).2 → c.size = buf.length := by
  induction fuel with
  | zero =>
    intro strm buf _ c hc
    rw [bzip2_loop_zero] at hc
    split at hc <;> simp at hc
  | succ fuel ih =>
    intro strm buf h5 c hc
    rw [bzip2_loop_succ] at hc
    have e : (engine_reply (stuck_engine more : StreamEngine Unit Unit).step input strm).status
        = more := rfl
    split at hc
    · rw [if_neg (by rw [e]; exact hm)] at hc
      simp only [e, ↓reduceIte] at hc
      have hl : (grow_buf bzip2_new_sz fill (stored inj strm buf
          (engine_reply (stuck_engine more : StreamEngine Unit Unit).step input strm))).length
          = buf.length := by
        rw [grow_buf_length, stored_length]
        unfold bzip2_new_sz scale_12
        omega
      rcases List.mem_cons.mp hc with hc | hc
      · exact (mem_call_event _ _ _ _ hc).2.2
      · rw [ih _ _ (by rw [hl]; exact h5) c hc, hl]
    · simp at hc

theorem zlib_loop_progress {σ α : Type} (step : σ → List Byte → Nat → Reply σ)
    (μ : σ → List Byte → Nat) (hP : Progress step (fun st => st = Z_OK) μ) (input : List Byte)
    (fill : α) (inj : Byte → α) (fuel : Nat) :
    ∀ (strm : z_stream σ) (buf : List α), μ strm.state (view input strm) < fuel →
      (zlib_loop step input fill inj fuel strm buf).1.is_running = false ∧
      (zlib_loop step input fill inj fuel strm buf).2.length
        ≤ μ strm.state (view input strm) + 1 := by
  induction fuel with
  | zero =>
    intro strm buf h
    omega
  | succ fuel ih =>
    intro strm buf h
    rw [zlib_loop_succ]
    split
    · exact ⟨rfl, by simp⟩
    · split
      · next hok =>
        have hp := hP strm.state (view input strm) strm.avail_out hok
        have hv : view input (grow_strm zlib_new_sz (advance strm (engine_reply step input strm))
            (stored inj strm buf (engine_reply step input strm)))
            = (view input strm).drop (engine_reply step input strm).consumed := by
          rw [view_grow, view_advance]
        obtain ⟨r1, r2⟩ := ih (grow_strm zlib_new_sz (advance strm (engine_reply step input strm))
          (stored inj strm buf (engine_reply step input strm)))
          (grow_buf zlib_new_sz fill (stored inj strm buf (engine_reply step input strm)))
          (by rw [hv]; exact lt_of_lt_of_le hp (Nat.lt_succ_iff.mp h))
        refine ⟨r1, ?_⟩
        rw [hv] at r2
        simp only [List.length_cons]
        exact Nat.succ_le_of_lt (lt_of_le_of_lt r2 (Nat.succ_lt_succ hp))
      · exact ⟨rfl, by simp⟩

theorem bzip2_loop_progress {σ α : Type} (more : Int) (step : σ → List Byte → Nat → Reply σ)
    (μ : σ → List Byte → Nat)
    (hP : Progress step (fun st => st = BZ_STREAM_END ∨ st = more) μ) (input : List Byte)
    (fill : α) (inj : Byte → α) (fuel : Nat) :
    ∀ (strm : z_stream σ) (buf : List α), μ strm.state (view input strm) < fuel →
      (bzip2_loop more step input fill inj fuel strm buf).1.is_running = false ∧
      (bzip2_loop more step input fill inj fuel strm buf).2.length
        ≤ μ strm.state (view input strm) + 1 := by
  induction fuel with
  | zero =>
    intro strm buf h
    omega
  | succ fuel ih =>
    intro strm buf h
    rw [bzip2_loop_succ]
    split
    · split
      · next hend =>
        have hp := hP strm.state (view input strm) strm.avail_out (Or.inl hend)
        have hv : view input (advance strm (engine_reply step input strm))
            = (view input strm).drop (engine_reply step input strm).consumed := view_advance _ _ _
        obtain ⟨r1, r2⟩ := ih (advance strm (engine_reply step input strm))
          (stored inj strm buf (engine_reply step input strm))
          (by rw [hv]; exact lt_of_lt_of_le hp (Nat.lt_succ_iff.mp h))
        refine ⟨r1, ?_⟩
        rw [hv] at r2
        simp only [List.length_cons]
        exact Nat.succ_le_of_lt (lt_of_le_of_lt r2 (Nat.succ_lt_succ hp))
      · split
        · next hok =>
          have hp := hP strm.state (view input strm) strm.avail_out (Or.inr hok)
          have hv : view input (grow_strm bzip2_new_sz
              (advance strm (engine_reply step input strm))
              (stored inj strm buf (engine_reply step input strm)))
              = (view input strm).drop (engine_reply step input strm).consumed := by
            rw [view_grow, view_advance]
          obtain ⟨r1, r2⟩ := ih (grow_strm bzip2_new_sz
            (advance strm (engine_reply step input strm))
            (stored inj strm buf (engine_reply step input strm)))
            (grow_buf bzip2_new_sz fill (stored inj strm buf (engine_reply step input strm)))
            (by rw [hv]; exact lt_of_lt_of_le hp (Nat.lt_succ_iff.mp h))
          refine ⟨r1, ?_⟩
          rw [hv] at r2
          simp only [List.length_cons]
          exact Nat.succ_le_of_lt (lt_of_le_of_lt r2 (Nat.succ_lt_succ hp))
        · exact ⟨rfl, by simp⟩
    · exact ⟨rfl, by simp⟩

/-- C8 (as stated, refuted).  With an engine that always answers "more output space" and makes no
progress, no amount of fuel lets any of the four loops end; in `BZip2_Compress` on a one-byte
input the working buffer does not even grow: every call is offered a buffer of 1 byte. -/
theorem growth_loops_can_run_forever :
    ¬ ∃ fuel : Nat,
      (Zlib_Compress true (stuck_engine Z_OK) fuel ⟨-14, -1, 0⟩ [1] []).ret ≠ .running ∨
      (Zlib_Uncompress true (stuck_engine Z_OK) fuel [1] 0 (-14)).ret ≠ .running ∨
      (BZip2_Compress true (stuck_engine BZ_FINISH_OK) fuel [1] []).ret ≠ .running ∨
      (BZip2_Uncompress true (stuck_engine BZ_OK) fuel [1] 0).ret ≠ .running ∨
      ∃ c, Event.stream c ∈ (BZip2_Compress true (stuck_engine BZ_FINISH_OK) fuel [1] []).events
        ∧ c.size ≠ 1 := by
  rintro ⟨fuel, h | h | h | h | ⟨c, hc, h⟩⟩
  · exact h ((Zlib_Compress_running _ fuel _ _ _ rfl).1.mpr (zlib_loop_stuck _ _ _ fuel _ _))
  · exact h ((Zlib_Uncompress_running _ fuel _ _ _ rfl).1.mpr (zlib_loop_stuck _ _ _ fuel _ _))
  · exact h ((BZip2_Compress_running _ fuel _ _ rfl).1.mpr
      (bzip2_loop_stuck _ (by decide) _ _ _ fuel _ _ (by decide)))
  · exact h ((BZip2_Uncompress_running _ fuel _ _ rfl).1.mpr
      (bzip2_loop_stuck _ (by decide) _ _ _ fuel _ _ (by decide)))
  · exact h (bzip2_loop_stuck_size _ (by decide) _ _ _ fuel _ _ (by decide) c
      (BZip2_Compress_stream _ _ _ _ _ hc))

theorem Zlib_Compress_init_failed {σ : Type} (zd : StreamEngine DeflateArgs σ) (fuel : Nat)
    (opts : CompressionOptions) (input output : List Byte)
    (h : (zd.init ⟨opts.level, Z_DEFLATED, opts.window_bits, 8, opts.strategy⟩).1 ≠ Z_OK) :
    Zlib_Compress true zd fuel opts input output = ⟨.value false, output,
      [.init (zd.init ⟨opts.level, Z_DEFLATED, opts.window_bits, 8, opts.strategy⟩).1]⟩ := by
  unfold Zlib_Compress
  simp only [↓reduceIte]
  rw [if_pos h]

theorem Zlib_Uncompress_init_failed {σ : Type} (zi : StreamEngine Int σ) (fuel : Nat)
    (input_data : List Byte) (ds windowBits : Int)
    (h : (zi.init (if windowBits > 0 then windowBits + 32 else windowBits)).1 ≠ Z_OK) :
    Zlib_Uncompress true zi fuel input_data ds windowBits = ⟨.value none, ds,
      [.init (zi.init (if windowBits > 0 then windowBits + 32 else windowBits)).1]⟩ := by
  unfold Zlib_Uncompress
  generalize (if windowBits > 0 then windowBits + 32 else windowBits) = wb at h ⊢
  simp only [↓reduceIte]
  rw [if_pos h]

theorem BZip2_Compress_init_failed {σ : Type} (bc : StreamEngine BzCompressArgs σ) (fuel : Nat)
    (input output : List Byte) (h : (bc.init ⟨1, 0, 30⟩).1 ≠ BZ_OK) :
    BZip2_Compress true bc fuel input output
      = ⟨.value false, output, [.init (bc.init ⟨1, 0, 30⟩).1]⟩ := by
  unfold BZip2_Compress
  simp only [↓reduceIte]
  rw [if_pos h]

theorem BZip2_Uncompress_init_failed {σ : Type} (bd : StreamEngine BzDecompressArgs σ)
    (fuel : Nat) (input_data : List Byte) (ds : Int) (h : (bd.init ⟨0, 0⟩).1 ≠ BZ_OK) :
    BZip2_Uncompress true bd fuel input_data ds
      = ⟨.value none, ds, [.init (bd.init ⟨0, 0⟩).1]⟩ := by
  unfold BZip2_Uncompress
  simp only [↓reduceIte]
  rw [if_pos h]

theorem not_running_of_false {σ α : Type} (e : LoopExit σ α) (h : e.is_running = false) :
    ¬ e.is_running = true := by
  rw [h]
  decide

/-- C8 (amended).  The loops have no iteration bound of their own; they end when the engine makes
progress.  If a measure `μ` of the engine's state and unread input drops at every call whose
status keeps the loop going (`Z_OK` for zlib; `BZ_STREAM_END`, `BZ_FINISH_OK` or `BZ_OK` for
bzip2), then with more fuel than the initial measure each adapter returns, after at most
`μ + 1` engine calls, hence at most `μ` growth steps. -/
theorem growth_bounded_by_progress {σ₁ σ₂ σ₃ σ₄ : Type} (zd : StreamEngine DeflateArgs σ₁)
    (zi : StreamEngine Int σ₂) (bc : StreamEngine BzCompressArgs σ₃)
    (bd : StreamEngine BzDecompressArgs σ₄)
    (μ₁ : σ₁ → List Byte → Nat) (μ₂ : σ₂ → List Byte → Nat) (μ₃ : σ₃ → List Byte → Nat)
    (μ₄ : σ₄ → List Byte → Nat)
    (h₁ : Progress zd.step (fun st => st = Z_OK) μ₁)
    (h₂ : Progress zi.step (fun st => st = Z_OK) μ₂)
    (h₃ : Progress bc.step (fun st => st = BZ_STREAM_END ∨ st = BZ_FINISH_OK) μ₃)
    (h₄ : Progress bd.step (fun st => st = BZ_STREAM_END ∨ st = BZ_OK) μ₄)
    (fuel : Nat) (opts : CompressionOptions) (input output : List Byte) (ds windowBits : Int) :
    (μ₁ (zd.init ⟨opts.level, Z_DEFLATED, opts.window_bits, 8, opts.strategy⟩).2
        (input.take (to_uint input.length)) < fuel →
      (Zlib_Compress true zd fuel opts input output).ret ≠ .running ∧
      (Zlib_Compress true zd fuel opts input output).events.length
        ≤ μ₁ (zd.init ⟨opts.level, Z_DEFLATED, opts.window_bits, 8, opts.strategy⟩).2
            (input.take (to_uint input.length)) + 2) ∧
    (μ₂ (zi.init (if windowBits > 0 then windowBits + 32 else windowBits)).2
        (input.take (to_uint input.length)) < fuel →
      (Zlib_Uncompress true zi fuel input ds windowBits).ret ≠ .running ∧
      (Zlib_Uncompress true zi fuel input ds windowBits).events.length
        ≤ μ₂ (zi.init (if windowBits > 0 then windowBits + 32 else windowBits)).2
            (input.take (to_uint input.length)) + 2) ∧
    (μ₃ (bc.init ⟨1, 0, 30⟩).2 (input.take (to_uint input.length)) < fuel →
      (BZip2_Compress true bc fuel input output).ret ≠ .running ∧
      (BZip2_Compress true bc fuel input output).events.length
        ≤ μ₃ (bc.init ⟨1, 0, 30⟩).2 (input.take (to_uint input.length)) + 2) ∧
    (μ₄ (bd.init ⟨0, 0⟩).2 (input.take (to_uint input.length)) < fuel →
      (BZip2_Uncompress true bd fuel input ds).ret ≠ .running ∧
      (BZip2_Uncompress true bd fuel input ds).events.length
        ≤ μ₄ (bd.init ⟨0, 0⟩).2 (input.take (to_uint input.length)) + 2) := by
  refine ⟨fun hf => ?_, fun hf => ?_, fun hf => ?_, fun hf => ?_⟩
  · by_cases hi : (zd.init ⟨opts.level, Z_DEFLATED, opts.window_bits, 8, opts.strategy⟩).1 = Z_OK
    · obtain ⟨r1, r2⟩ := Zlib_Compress_running zd fuel opts input output hi
      obtain ⟨p1, p2⟩ := zlib_loop_progress zd.step μ₁ h₁ input (0 : Byte) id fuel
        ⟨0, to_uint input.length, 0, to_uint input.length,
          (zd.init ⟨opts.level, Z_DEFLATED, opts.window_bits, 8, opts.strategy⟩).2⟩
        (resize 0 output input.length) hf
      refine ⟨fun hr => not_running_of_false _ p1 (r1.mp hr), ?_⟩
      rw [r2]
      exact Nat.succ_le_succ p2
    · rw [Zlib_Compress_init_failed zd fuel opts input output hi]
      exact ⟨fun hr => (by cases hr), Nat.succ_le_succ (Nat.zero_le _)⟩
  · by_cases hi : (zi.init (if windowBits > 0 then windowBits + 32 else windowBits)).1 = Z_OK
    · obtain ⟨r1, r2⟩ := Zlib_Uncompress_running zi fuel input ds windowBits hi
      obtain ⟨p1, p2⟩ := zlib_loop_progress zi.step μ₂ h₂ input (none : Option Byte) some fuel
        ⟨0, to_uint input.length, 0, to_uint (input.length * 5),
          (zi.init (if windowBits > 0 then windowBits + 32 else windowBits)).2⟩
        (List.replicate (input.length * 5) none) hf
      refine ⟨fun hr => not_running_of_false _ p1 (r1.mp hr), ?_⟩
      rw [r2]
      exact Nat.succ_le_succ p2
    · rw [Zlib_Uncompress_init_failed zi fuel input ds windowBits hi]
      exact ⟨fun hr => (by cases hr), Nat.succ_le_succ (Nat.zero_le _)⟩
  · by_cases hi : (bc.init ⟨1, 0, 30⟩).1 = BZ_OK
    · obtain ⟨r1, r2⟩ := BZip2_Compress_running bc fuel input output hi
      obtain ⟨p1, p2⟩ := bzip2_loop_progress BZ_FINISH_OK bc.step μ₃ h₃ input (0 : Byte) id fuel
        ⟨0, to_uint input.length, 0, to_uint input.length, (bc.init ⟨1, 0, 30⟩).2⟩
        (resize 0 output input.length) hf
      refine ⟨fun hr => not_running_of_false _ p1 (r1.mp hr), ?_⟩
      rw [r2]
      exact Nat.succ_le_succ p2
    · rw [BZip2_Compress_init_failed bc fuel input output hi]
      exact ⟨fun hr => (by cases hr), Nat.succ_le_succ (Nat.zero_le _)⟩
  · by_cases hi : (bd.init ⟨0, 0⟩).1 = BZ_OK
    · obtain ⟨r1, r2⟩ := BZip2_Uncompress_running bd fuel input ds hi
      obtain ⟨p1, p2⟩ := bzip2_loop_progress BZ_OK bd.step μ₄ h₄ input (none : Option Byte) some
        fuel ⟨0, to_uint input.length, 0, to_uint (input.length * 5), (bd.init ⟨0, 0⟩).2⟩
        (List.replicate (input.length * 5) none) hf
      refine ⟨fun hr => not_running_of_false _ p1 (r1.mp hr), ?_⟩
      rw [r2]
      exact Nat.succ_le_succ p2
    · rw [BZip2_Uncompress_init_failed bd fuel input ds hi]
      exact ⟨fun hr => (by cases hr), Nat.succ_le_succ (Nat.zero_le _)⟩

/-- Witness for C8: engines that end their stream at the second call. -/
theorem growth_bounded_by_progress_witness :
    ((Zlib_Compress true zlib_in_two_calls 5 ⟨-14, -1, 0⟩ [1, 2, 3, 4, 5] []).ret ≠ .running ∧
      (Zlib_Compress true zlib_in_two_calls 5 ⟨-14, -1, 0⟩ [1, 2, 3, 4, 5] []).events.length
        ≤ 2 + 2) ∧
    ((Zlib_Uncompress true zlib_in_two_calls 5 [1] 0 (-14)).ret ≠ .running ∧
      (Zlib_Uncompress true zlib_in_two_calls 5 [1] 0 (-14)).events.length ≤ 2 + 2) ∧
    ((BZip2_Compress true (bz_in_two_calls BZ_FINISH_OK 5) 5 [1, 2, 3, 4, 5] []).ret
        ≠ .running ∧
      (BZip2_Compress true (bz_in_two_calls BZ_FINISH_OK 5) 5 [1, 2, 3, 4, 5] []).events.length
        ≤ 2 + 2) ∧
    ((BZip2_Uncompress true (bz_in_two_calls BZ_OK 1) 5 [1] 0).ret ≠ .running ∧
      (BZip2_Uncompress true (bz_in_two_calls BZ_OK 1) 5 [1] 0).events.length ≤ 2 + 2) :=
  ⟨(growth_bounded_by_progress zlib_in_two_calls zlib_in_two_calls
      (bz_in_two_calls BZ_FINISH_OK 5) (bz_in_two_calls BZ_OK 1)
      (fun s _ => s.length) (fun s _ => s.length) (fun s _ => s.length) (fun s _ => s.length)
      (scripted_progress _ _ _ _ (by decide)) (scripted_progress _ _ _ _ (by decide))
      (scripted_progress _ _ _ _ (by decide)) (scripted_progress _ _ _ _ (by decide))
      5 ⟨-14, -1, 0⟩ [1, 2, 3, 4, 5] [] 0 (-14)).1 (by decide),
    (growth_bounded_by_progress zlib_in_two_calls zlib_in_two_calls
      (bz_in_two_calls BZ_FINISH_OK 5) (bz_in_two_calls BZ_OK 1)
      (fun s _ => s.length) (fun s _ => s.length) (fun s _ => s.length) (fun s _ => s.length)
      (scripted_progress _ _ _ _ (by decide)) (scripted_progress _ _ _ _ (by decide))
      (scripted_progress _ _ _ _ (by decide)) (scripted_progress _ _ _ _ (by decide))
      5 ⟨-14, -1, 0⟩ [1] [] 0 (-14)).2.1 (by decide),
    (growth_bounded_by_progress zlib_in_two_calls zlib_in_two_calls
      (bz_in_two_calls BZ_FINISH_OK 5) (bz_in_two_calls BZ_OK 1)
      (fun s _ => s.length) (fun s _ => s.length) (fun s _ => s.length) (fun s _ => s.length)
      (scripted_progress _ _ _ _ (by decide)) (scripted_progress _ _ _ _ (by decide))
      (scripted_progress _ _ _ _ (by decide)) (scripted_progress _ _ _ _ (by decide))
      5 ⟨-14, -1, 0⟩ [1, 2, 3, 4, 5] [] 0 (-14)).2.2.1 (by decide),
    (growth_bounded_by_progress zlib_in_two_calls zlib_in_two_calls
      (bz_in_two_calls BZ_FINISH_OK 5) (bz_in_two_calls BZ_OK 1)
      (fun s _ => s.length) (fun s _ => s.length) (fun s _ => s.length) (fun s _ => s.length)
      (scripted_progress _ _ _ _ (by decide)) (scripted_progress _ _ _ _ (by decide))
      (scripted_progress _ _ _ _ (by decide)) (scripted_progress _ _ _ _ (by decide))
      5 ⟨-14, -1, 0⟩ [1] [] 0 (-14)).2.2.2 (by decide)⟩

/-! ## Exact trim -/

theorem resize_of_le {α : Type} (fill : α) (s : List α) (n : Nat) (h : n ≤ s.length) :
    resize fill s n = s.take n := by
  unfold resize
  rw [Nat.sub_eq_zero_of_le h]
  simp

theorem written_of_call_event {σ α : Type} (strm : z_stream σ) (buf : List α) (r : Reply σ)
    (rest : List Event) :
    written_of (call_event strm buf r :: rest) = r.written ++ written_of rest := rfl

theorem grow_delta_lt (n : Nat) (h : n < 2 ^ 32) :
    zlib_new_sz n - n < 2 ^ 32 ∧ bzip2_new_sz n - n < 2 ^ 32 := by
  unfold zlib_new_sz bzip2_new_sz scale_02 scale_12
  dsimp only
  constructor
  · split <;> omega
  · omega

/-- One iteration keeps the buffer exact: if the cells before `next_out` are the bytes stored so
far and the offered window ends at the end of the buffer, the same holds after the call. -/
theorem stored_exact {σ α : Type} (inj : Byte → α) (strm : z_stream σ) (buf : List α)
    (r : Reply σ) (acc : List Byte) (hw : r.written.length ≤ strm.avail_out)
    (h1 : strm.next_out + strm.avail_out = buf.length)
    (h2 : buf.take strm.next_out = acc.map inj) :
    (advance strm r).next_out + (advance strm r).avail_out = (stored inj strm buf r).length ∧
    (stored inj strm buf r).take (advance strm r).next_out = (acc ++ r.written).map inj := by
  constructor
  · rw [stored_length]
    unfold advance
    dsimp only
    omega
  · unfold stored advance
    dsimp only
    have := store_take_end buf (r.written.map inj) strm.next_out
      (by rw [List.length_map]; omega)
    rw [List.length_map] at this
    rw [this, h2, List.map_append]

/-- A growth step after a call that used up the window keeps the buffer exact. -/
theorem grow_exact {σ α : Type} (new_sz : Nat → Nat) (fill : α) (inj : Byte → α)
    (strm : z_stream σ) (buf : List α) (acc : List Byte)
    (hn : buf.length ≤ new_sz buf.length) (hd : new_sz buf.length - buf.length < 2 ^ 32)
    (h1 : strm.next_out = buf.length) (h2 : buf.take strm.next_out = acc.map inj) :
    (grow_strm new_sz strm buf).next_out + (grow_strm new_sz strm buf).avail_out
      = (grow_buf new_sz fill buf).length ∧
    (grow_buf new_sz fill buf).take (grow_strm new_sz strm buf).next_out = acc.map inj := by
  constructor
  · rw [grow_buf_length]
    unfold grow_strm
    dsimp only
    rw [to_uint_of_lt hd]
    omega
  · unfold grow_buf grow_strm
    dsimp only
    rw [resize_take_of_le _ _ _ _ hn (le_refl _), ← h1, h2]

theorem zlib_loop_exact {σ α : Type} (step : σ → List Byte → Nat → Reply σ) (hB : Bounded step)
    (hF : FillsOnMore step Z_OK) (input : List Byte) (fill : α) (inj : Byte → α) (fuel : Nat) :
    ∀ (strm : z_stream σ) (buf : List α) (acc : List Byte) (s' : z_stream σ) (b' : List α)
      (evs : List Event),
      strm.next_out + strm.avail_out = buf.length → buf.take strm.next_out = acc.map inj →
      zlib_loop step input fill inj fuel strm buf = (.finished s' b', evs) →
      (∀ c, Event.stream c ∈ evs → c.size < 2 ^ 32) →
      s'.next_out + s'.avail_out = b'.length ∧
      b'.take s'.next_out = (acc ++ written_of evs).map inj := by
  induction fuel with
  | zero =>
    intro strm buf acc s' b' evs _ _ h _
    simp [zlib_loop] at h
  | succ fuel ih =>
    intro strm buf acc s' b' evs h1 h2 h hs
    have hw := hB strm.state (view input strm) strm.avail_out
    obtain ⟨e1, e2⟩ := stored_exact inj strm buf (engine_reply step input strm) acc hw h1 h2
    rw [zlib_loop_succ] at h
    split at h
    · obtain ⟨g1, g2⟩ := Prod.mk.inj h
      injection g1 with g3 g4
      subst g3 g4 g2
      rw [written_of_call_event]
      exact ⟨e1, by simpa [written_of] using e2⟩
    · split at h
      · next hok =>
        obtain ⟨g1, g2⟩ := Prod.mk.inj h
        subst g2
        have hfill := hF strm.state (view input strm) strm.avail_out hok
        have hsz : buf.length < 2 ^ 32 :=
          hs ⟨strm.next_out, strm.avail_out, buf.length, _, _⟩ (List.mem_cons_self _ _)
        have hl := stored_length inj strm buf (engine_reply step input strm)
        have hno : (advance strm (engine_reply step input strm)).next_out
            = (stored inj strm buf (engine_reply step input strm)).length := by
          rw [hl]
          unfold advance
          dsimp only
          unfold engine_reply
          omega
        obtain ⟨f1, f2⟩ := grow_exact zlib_new_sz fill inj
          (advance strm (engine_reply step input strm))
          (stored inj strm buf (engine_reply step input strm))
          (acc ++ (engine_reply step input strm).written)
          (le_of_lt (zlib_new_sz_gt _)) (by rw [hl]; exact (grow_delta_lt _ hsz).1) hno e2
        obtain ⟨r1, r2⟩ := ih _ _ _ s' b' _ f1 f2 (Prod.ext g1 rfl)
          (fun c hc => hs c (List.mem_cons_of_mem _ hc))
        refine ⟨r1, ?_⟩
        rw [r2, written_of_call_event, List.append_assoc]
      · simp at h

theorem bzip2_loop_exact {σ α : Type} (more : Int) (step : σ → List Byte → Nat → Reply σ)
    (hB : Bounded step) (hF : FillsOnMore step more) (input : List Byte) (fill : α)
    (inj : Byte → α) (fuel : Nat) :
    ∀ (strm : z_stream σ) (buf : List α) (acc : List Byte) (s' : z_stream σ) (b' : List α)
      (evs : List Event),
      strm.next_out + strm.avail_out = buf.length → buf.take strm.next_out = acc.map inj →
      bzip2_loop more step input fill inj fuel strm buf = (.finished s' b', evs) →
      (∀ c, Event.stream c ∈ evs → c.size < 2 ^ 32) →
      s'.next_out + s'.avail_out = b'.length ∧
      b'.take s'.next_out = (acc ++ written_of evs).map inj := by
  induction fuel with
  | zero =>
    intro strm buf acc s' b' evs h1 h2 h _
    rw [bzip2_loop_zero] at h
    split at h
    · simp at h
    · obtain ⟨g1, g2⟩ := Prod.mk.inj h
      injection g1 with g3 g4
      subst g3 g4 g2
      exact ⟨h1, by simpa [written_of] using h2⟩
  | succ fuel ih =>
    intro strm buf acc s' b' evs h1 h2 h hs
    have hw := hB strm.state (view input strm) strm.avail_out
    obtain ⟨e1, e2⟩ := stored_exact inj strm buf (engine_reply step input strm) acc hw h1 h2
    rw [bzip2_loop_succ] at h
    split at h
    · split at h
      · obtain ⟨g1, g2⟩ := Prod.mk.inj h
        subst g2
        obtain ⟨r1, r2⟩ := ih _ _ _ s' b' _ e1 e2 (Prod.ext g1 rfl)
          (fun c hc => hs c (List.mem_cons_of_mem _ hc))
        refine ⟨r1, ?_⟩
        rw [r2, written_of_call_event, List.append_assoc]
      · split at h
        · next hok =>
          obtain ⟨g1, g2⟩ := Prod.mk.inj h
          subst g2
          have hfill := hF strm.state (view input strm) strm.avail_out hok
          have hsz : buf.length < 2 ^ 32 :=
            hs ⟨strm.next_out, strm.avail_out, buf.length, _, _⟩ (List.mem_cons_self _ _)
          have hl := stored_length inj strm buf (engine_reply step input strm)
          have hno : (advance strm (engine_reply step input strm)).next_out
              = (stored inj strm buf (engine_reply step input strm)).length := by
            rw [hl]
            unfold advance
            dsimp only
            unfold engine_reply
            omega
          obtain ⟨f1, f2⟩ := grow_exact bzip2_new_sz fill inj
            (advance strm (engine_reply step input strm))
            (stored inj strm buf (engine_reply step input strm))
            (acc ++ (engine_reply step input strm).written)
            (bzip2_new_sz_ge _) (by rw [hl]; exact (grow_delta_lt _ hsz).2) hno e2
          obtain ⟨r1, r2⟩ := ih _ _ _ s' b' _ f1 f2 (Prod.ext g1 rfl)
            (fun c hc => hs c (List.mem_cons_of_mem _ hc))
          refine ⟨r1, ?_⟩
          rw [r2, written_of_call_event, List.append_assoc]
        · simp at h
    · obtain ⟨g1, g2⟩ := Prod.mk.inj h
      injection g1 with g3 g4
      subst g3 g4 g2
      exact ⟨h1, by simpa [written_of] using h2⟩

/-! ## Successful returns of the adapters, in terms of their loops -/

theorem Zlib_Compress_finished {σ : Type} (zd : StreamEngine DeflateArgs σ) (fuel : Nat)
    (opts : CompressionOptions) (input output : List Byte) (s' : z_stream σ) (b' : List Byte)
    (evs : List Event)
    (hi : (zd.init ⟨opts.level, Z_DEFLATED, opts.window_bits, 8, opts.strategy⟩).1 = Z_OK)
    (hL : zlib_loop zd.step input 0 id fuel
      ⟨0, to_uint input.length, 0, to_uint input.length,
        (zd.init ⟨opts.level, Z_DEFLATED, opts.window_bits, 8, opts.strategy⟩).2⟩
      (resize 0 output input.length) = (.finished s' b', evs)) :
    Zlib_Compress true zd fuel opts input output =
      ⟨.value true, resize 0 b' (b'.length - s'.avail_out),
        .init (zd.init ⟨opts.level, Z_DEFLATED, opts.window_bits, 8, opts.strategy⟩).1 :: evs⟩ := by
  unfold Zlib_Compress
  simp only [↓reduceIte]
  rw [if_neg (not_not.mpr hi), hL]

theorem Zlib_Compress_success {σ : Type} (zd : StreamEngine DeflateArgs σ) (fuel : Nat)
    (opts : CompressionOptions) (input output : List Byte)
    (hr : (Zlib_Compress true zd fuel opts input output).ret = .value true) :
    ∃ s' b' evs, zlib_loop zd.step input 0 id fuel
      ⟨0, to_uint input.length, 0, to_uint input.length,
        (zd.init ⟨opts.level, Z_DEFLATED, opts.window_bits, 8, opts.strategy⟩).2⟩
      (resize 0 output input.length) = (.finished s' b', evs) ∧
    Zlib_Compress true zd fuel opts input output =
      ⟨.value true, resize 0 b' (b'.length - s'.avail_out),
        .init (zd.init ⟨opts.level, Z_DEFLATED, opts.window_bits, 8, opts.strategy⟩).1 :: evs⟩ := by
  by_cases hi : (zd.init ⟨opts.level, Z_DEFLATED, opts.window_bits, 8, opts.strategy⟩).1 = Z_OK
  · rcases hL : zlib_loop zd.step input 0 id fuel
      ⟨0, to_uint input.length, 0, to_uint input.length,
        (zd.init ⟨opts.level, Z_DEFLATED, opts.window_bits, 8, opts.strategy⟩).2⟩
      (resize 0 output input.length) with ⟨exit, evs⟩
    cases exit with
    | finished s' b' => exact ⟨s', b', evs, rfl, Zlib_Compress_finished _ _ _ _ _ _ _ _ hi hL⟩
    | failed s' b' =>
      unfold Zlib_Compress at hr
      simp only [↓reduceIte] at hr
      rw [if_neg (not_not.mpr hi), hL] at hr
      cases hr
    | running s' b' =>
      unfold Zlib_Compress at hr
      simp only [↓reduceIte] at hr
      rw [if_neg (not_not.mpr hi), hL] at hr
      cases hr
  · rw [Zlib_Compress_init_failed _ _ _ _ _ hi] at hr
    cases hr

theorem Zlib_Uncompress_finished {σ : Type} (zi : StreamEngine Int σ) (fuel : Nat)
    (input_data : List Byte) (ds windowBits : Int) (s' : z_stream σ) (b' : List (Option Byte))
    (evs : List Event)
    (hi : (zi.init (if windowBits > 0 then windowBits + 32 else windowBits)).1 = Z_OK)
    (hL : zlib_loop zi.step input_data none some fuel
      ⟨0, to_uint input_data.length, 0, to_uint (input_data.length * 5),
        (zi.init (if windowBits > 0 then windowBits + 32 else windowBits)).2⟩
      (List.replicate (input_data.length * 5) none) = (.finished s' b', evs)) :
    Zlib_Uncompress true zi fuel input_data ds windowBits =
      ⟨.value (some b'), to_int (b'.length - s'.avail_out),
        .init (zi.init (if windowBits > 0 then windowBits + 32 else windowBits)).1 :: evs⟩ := by
  unfold Zlib_Uncompress
  generalize (if windowBits > 0 then windowBits + 32 else windowBits) = wb at hi hL ⊢
  simp only [↓reduceIte]
  rw [if_neg (not_not.mpr hi), hL]

theorem Zlib_Uncompress_success {σ : Type} (zi : StreamEngine Int σ) (fuel : Nat)
    (input_data : List Byte) (ds windowBits : Int) (buf : List (Option Byte))
    (hr : (Zlib_Uncompress true zi fuel input_data ds windowBits).ret = .value (some buf)) :
    ∃ s' evs, zlib_loop zi.step input_data none some fuel
      ⟨0, to_uint input_data.length, 0, to_uint (input_data.length * 5),
        (zi.init (if windowBits > 0 then windowBits + 32 else windowBits)).2⟩
      (List.replicate (input_data.length * 5) none) = (.finished s' buf, evs) ∧
    Zlib_Uncompress true zi fuel input_data ds windowBits =
      ⟨.value (some buf), to_int (buf.length - s'.avail_out),
        .init (zi.init (if windowBits > 0 then windowBits + 32 else windowBits)).1 :: evs⟩ := by
  by_cases hi : (zi.init (if windowBits > 0 then windowBits + 32 else windowBits)).1 = Z_OK
  · rcases hL : zlib_loop zi.step input_data none some fuel
      ⟨0, to_uint input_data.length, 0, to_uint (input_data.length * 5),
        (zi.init (if windowBits > 0 then windowBits + 32 else windowBits)).2⟩
      (List.replicate (input_data.length * 5) none) with ⟨exit, evs⟩
    cases exit with
    | finished s' b' =>
      have e := Zlib_Uncompress_finished _ _ _ ds _ _ _ _ hi hL
      rw [e] at hr
      injection hr with hr
      injection hr with hr
      subst hr
      exact ⟨s', evs, rfl, e⟩
    | failed s' b' =>
      unfold Zlib_Uncompress at hr
      generalize (if windowBits > 0 then windowBits + 32 else windowBits) = wb at hi hL hr
      simp only [↓reduceIte] at hr
      rw [if_neg (not_not.mpr hi), hL] at hr
      cases hr
    | running s' b' =>
      unfold Zlib_Uncompress at hr
      generalize (if windowBits > 0 then windowBits + 32 else windowBits) = wb at hi hL hr
      simp only [↓reduceIte] at hr
      rw [if_neg (not_not.mpr hi), hL] at hr
      cases hr
  · rw [Zlib_Uncompress_init_failed _ _ _ _ _ hi] at hr
    cases hr

theorem BZip2_Compress_success {σ : Type} (bc : StreamEngine BzCompressArgs σ) (fuel : Nat)
    (input output : List Byte)
    (hr : (BZip2_Compress true bc fuel input output).ret = .value true) :
    ∃ s' b' evs, bzip2_loop BZ_FINISH_OK bc.step input 0 id fuel
      ⟨0, to_uint input.length, 0, to_uint input.length, (bc.init ⟨1, 0, 30⟩).2⟩
      (resize 0 output input.length) = (.finished s' b', evs) ∧
    BZip2_Compress true bc fuel input output =
      ⟨.value true, resize 0 b' (b'.length - s'.avail_out),
        .init (bc.init ⟨1, 0, 30⟩).1 :: evs⟩ := by
  by_cases hi : (bc.init ⟨1, 0, 30⟩).1 = BZ_OK
  · rcases hL : bzip2_loop BZ_FINISH_OK bc.step input 0 id fuel
      ⟨0, to_uint input.length, 0, to_uint input.length, (bc.init ⟨1, 0, 30⟩).2⟩
      (resize 0 output input.length) with ⟨exit, evs⟩
    cases exit with
    | finished s' b' =>
      refine ⟨s', b', evs, rfl, ?_⟩
      unfold BZip2_Compress
      simp only [↓reduceIte]
      rw [if_neg (not_not.mpr hi), hL]
    | failed s' b' =>
      unfold BZip2_Compress at hr
      simp only [↓reduceIte] at hr
      rw [if_neg (not_not.mpr hi), hL] at hr
      cases hr
    | running s' b' =>
      unfold BZip2_Compress at hr
      simp only [↓reduceIte] at hr
      rw [if_neg (not_not.mpr hi), hL] at hr
      cases hr
  · rw [BZip2_Compress_init_failed _ _ _ _ hi] at hr
    cases hr

theorem BZip2_Uncompress_success {σ : Type} (bd : StreamEngine BzDecompressArgs σ) (fuel : Nat)
    (input_data : List Byte) (ds : Int) (buf : List (Option Byte))
    (hr : (BZip2_Uncompress true bd fuel input_data ds).ret = .value (some buf)) :
    ∃ s' evs, bzip2_loop BZ_OK bd.step input_data none some fuel
      ⟨0, to_uint input_data.length, 0, to_uint (input_data.length * 5), (bd.init ⟨0, 0⟩).2⟩
      (List.replicate (input_data.length * 5) none) = (.finished s' buf, evs) ∧
    BZip2_Uncompress true bd fuel input_data ds =
      ⟨.value (some buf), to_int (buf.length - s'.avail_out),
        .init (bd.init ⟨0, 0⟩).1 :: evs⟩ := by
  by_cases hi : (bd.init ⟨0, 0⟩).1 = BZ_OK
  · rcases hL : bzip2_loop BZ_OK bd.step input_data none some fuel
      ⟨0, to_uint input_data.length, 0, to_uint (input_data.length * 5), (bd.init ⟨0, 0⟩).2⟩
      (List.replicate (input_data.length * 5) none) with ⟨exit, evs⟩
    cases exit with
    | finished s' b' =>
      have e : BZip2_Uncompress true bd fuel input_data ds =
          ⟨.value (some b'), to_int (b'.length - s'.avail_out),
            .init (bd.init ⟨0, 0⟩).1 :: evs⟩ := by
        unfold BZip2_Uncompress
        simp only [↓reduceIte]
        rw [if_neg (not_not.mpr hi), hL]
      rw [e] at hr
      injection hr with hr
      injection hr with hr
      subst hr
      exact ⟨s', evs, rfl, e⟩
    | failed s' b' =>
      unfold BZip2_Uncompress at hr
      simp only [↓reduceIte] at hr
      rw [if_neg (not_not.mpr hi), hL] at hr
      cases hr
    | running s' b' =>
      unfold BZip2_Uncompress at hr
      simp only [↓reduceIte] at hr
      rw [if_neg (not_not.mpr hi), hL] at hr
      cases hr
  · rw [BZip2_Uncompress_init_failed _ _ _ _ hi] at hr
    cases hr

theorem buffering_fills {ι : Type} (f : List Byte → List Byte) (ok fin zero_space : Int)
    (h : ok ≠ fin) :
    FillsOnMore (buffering_engine f ok fin zero_space : StreamEngine ι _).step ok := by
  intro s inp a hs
  unfold buffering_engine at hs ⊢
  dsimp only at hs ⊢
  split at hs
  · next h0 => simp [h0]
  · next h0 =>
    rw [if_neg h0]
    dsimp only at hs ⊢
    split at hs
    · exact absurd hs.symm h
    · simp only [List.length_take]
      omega

theorem size_lt_of_largest_buffer (B : Nat) (evs : List Event) (h : largest_buffer evs < B) :
    ∀ c, Event.stream c ∈ evs → c.size < B := by
  induction evs with
  | nil =>
    intro c hc
    simp at hc
  | cons e rest ih =>
    intro c hc
    cases e with
    | init st =>
      rcases List.mem_cons.mp hc with hc | hc
      · cases hc
      · exact ih h c hc
    | stream c' =>
      have h' : max c'.size (largest_buffer rest) < B := h
      rcases List.mem_cons.mp hc with hc | hc
      · injection hc with hc
        subst hc
        exact lt_of_le_of_lt (le_max_left _ _) h'
      · exact ih (lt_of_le_of_lt (le_max_right _ _) h') c hc
    | oneshot r =>
      rcases List.mem_cons.mp hc with hc | hc
      · cases hc
      · exact ih h c hc

/-- What the final trim keeps, given what the loop guarantees. -/
theorem trim_exact {σ α : Type} (fill : α) (inj : Byte → α) (s' : z_stream σ) (b' : List α)
    (w : List Byte) (h1 : s'.next_out + s'.avail_out = b'.length)
    (h2 : b'.take s'.next_out = ([] ++ w).map inj) :
    b'.length - s'.avail_out = w.length ∧ resize fill b' (b'.length - s'.avail_out) = w.map inj ∧
    b'.take w.length = w.map inj := by
  have e : b'.length - s'.avail_out = s'.next_out := by omega
  have hl : s'.next_out = w.length := by
    have := congrArg List.length h2
    simp only [List.length_take, List.nil_append, List.length_map] at this
    omega
  rw [resize_of_le _ _ _ (Nat.sub_le _ _), e, ← hl]
  exact ⟨rfl, h2, h2⟩

theorem bzip2_loop_no_input {σ α : Type} (more : Int) (step : σ → List Byte → Nat → Reply σ)
    (input : List Byte) (fill : α) (inj : Byte → α) (fuel : Nat) (strm : z_stream σ)
    (buf : List α) (h : strm.avail_in = 0) :
    bzip2_loop more step input fill inj fuel strm buf = (.finished strm buf, []) := by
  cases fuel with
  | zero => rw [bzip2_loop_zero, if_neg (not_not.mpr h)]
  | succ n => rw [bzip2_loop_succ, if_neg (not_not.mpr h)]

/-- An input whose length is a multiple of `2^32` is handed to the engine as `avail_in = 0`:
`BZip2_Compress` makes no engine call and returns the zero-filled string of the input length. -/
theorem BZip2_Compress_wrapped_length {σ : Type} (bc : StreamEngine BzCompressArgs σ)
    (fuel : Nat) (input output : List Byte) (hi : (bc.init ⟨1, 0, 30⟩).1 = BZ_OK)
    (h : to_uint input.length = 0) :
    BZip2_Compress true bc fuel input output
      = ⟨.value true, resize 0 output input.length, [.init (bc.init ⟨1, 0, 30⟩).1]⟩ := by
  unfold BZip2_Compress
  simp only [↓reduceIte]
  rw [if_neg (not_not.mpr hi), h, bzip2_loop_no_input _ _ _ _ _ _ _ _ rfl]
  dsimp only
  rw [Nat.sub_zero, resize_of_le _ _ _ (le_refl _), List.take_length]

/-- C3 (as stated, refuted).  An engine that answers "more space" while part of the offered space
is unused leaves a gap: the growth step puts the output cursor at the old size.  With an engine
that stores 2 bytes in all, `Zlib_Compress` returns the 4 bytes `[7, 0, 0, 8]`,
`BZip2_Compress` returns 6 bytes, and `Zlib_Uncompress` and `BZip2_Uncompress` report 16 and 6
bytes with uninitialised cells among them.  And on an input of `2^32` bytes `BZip2_Compress`
returns `true` with `2^32` bytes although the engine was never called. -/
theorem trim_keeps_gap :
    ((Zlib_Compress true (leaving_gap Z_OK Z_STREAM_END 3) 5 ⟨-14, -1, 0⟩ [1, 2, 3] []).ret
        = .value true ∧
      (Zlib_Compress true (leaving_gap Z_OK Z_STREAM_END 3) 5 ⟨-14, -1, 0⟩ [1, 2, 3] []).output
        = [7, 0, 0, 8] ∧
      written_of (Zlib_Compress true (leaving_gap Z_OK Z_STREAM_END 3) 5 ⟨-14, -1, 0⟩ [1, 2, 3]
        []).events = [7, 8] ∧
      (Zlib_Uncompress true (leaving_gap Z_OK Z_STREAM_END 3) 5 [1, 2, 3] 0
        (-14)).decompress_size = 16 ∧
      written_of (Zlib_Uncompress true (leaving_gap Z_OK Z_STREAM_END 3) 5 [1, 2, 3] 0
        (-14)).events = [7, 8] ∧
      (BZip2_Compress true (leaving_gap BZ_FINISH_OK BZ_STREAM_END 5) 5 [1, 2, 3, 4, 5] []).ret
        = .value true ∧
      (BZip2_Compress true (leaving_gap BZ_FINISH_OK BZ_STREAM_END 5) 5 [1, 2, 3, 4, 5]
        []).output = [7, 0, 0, 0, 0, 8] ∧
      written_of (BZip2_Compress true (leaving_gap BZ_FINISH_OK BZ_STREAM_END 5) 5
        [1, 2, 3, 4, 5] []).events = [7, 8] ∧
      BZip2_Uncompress true (leaving_gap BZ_OK BZ_STREAM_END 1) 5 [1] 0
        = ⟨.value (some [some 7, none, none, none, none, some 8]), 6,
            [.init 0, .stream ⟨0, 5, 5, BZ_OK, [7]⟩, .stream ⟨5, 1, 6, BZ_STREAM_END, [8]⟩]⟩) ∧
    ((BZip2_Compress true stored_bz_compress 5 (List.replicate (2 ^ 32) 0) []).ret
        = .value true ∧
      (BZip2_Compress true stored_bz_compress 5 (List.replicate (2 ^ 32) 0) []).output.length
        = 2 ^ 32 ∧
      written_of (BZip2_Compress true stored_bz_compress 5 (List.replicate (2 ^ 32) 0)
        []).events = []) := by
  refine ⟨by decide, ?_⟩
  rw [BZip2_Compress_wrapped_length stored_bz_compress 5 (List.replicate (2 ^ 32) 0) [] rfl
    (by rw [List.length_replicate]; decide)]
  refine ⟨rfl, ?_, rfl⟩
  show (resize 0 [] (List.replicate (2 ^ 32) (0 : Byte)).length).length = 2 ^ 32
  rw [resize_length, List.length_replicate]

/-- C3 (amended).  For engines that never store more than `avail_out` bytes and that answer "more
space" (`Z_OK`, `BZ_FINISH_OK`, `BZ_OK`) only when they have used up the space offered, as long as
the initial capacity and every working buffer offered are below `2^32` bytes: on success the
string returned by `Zlib_Compress` and `BZip2_Compress` is exactly the bytes the engine stored
over all its calls, in order; and when fewer than `2^31` bytes were stored, `Zlib_Uncompress` and
`BZip2_Uncompress` set `*decompress_size` to their number and the buffer starts with them. -/
theorem exact_trim {σ₁ σ₂ σ₃ σ₄ : Type} (zd : StreamEngine DeflateArgs σ₁)
    (zi : StreamEngine Int σ₂) (bc : StreamEngine BzCompressArgs σ₃)
    (bd : StreamEngine BzDecompressArgs σ₄) (hB₁ : Bounded zd.step) (hB₂ : Bounded zi.step)
    (hB₃ : Bounded bc.step) (hB₄ : Bounded bd.step) (hF₁ : FillsOnMore zd.step Z_OK)
    (hF₂ : FillsOnMore zi.step Z_OK) (hF₃ : FillsOnMore bc.step BZ_FINISH_OK)
    (hF₄ : FillsOnMore bd.step BZ_OK) (fuel : Nat) (opts : CompressionOptions)
    (input output : List Byte) (ds windowBits : Int) :
    (input.length < 2 ^ 32 →
      largest_buffer (Zlib_Compress true zd fuel opts input output).events < 2 ^ 32 →
      (Zlib_Compress true zd fuel opts input output).ret = .value true →
      (Zlib_Compress true zd fuel opts input output).output
        = written_of (Zlib_Compress true zd fuel opts input output).events) ∧
    (input.length * 5 < 2 ^ 32 →
      largest_buffer (Zlib_Uncompress true zi fuel input ds windowBits).events < 2 ^ 32 →
      (written_of (Zlib_Uncompress true zi fuel input ds windowBits).events).length < 2 ^ 31 →
      ∀ buf, (Zlib_Uncompress true zi fuel input ds windowBits).ret = .value (some buf) →
        (Zlib_Uncompress true zi fuel input ds windowBits).decompress_size
          = (written_of (Zlib_Uncompress true zi fuel input ds windowBits).events).length ∧
        buf.take (written_of (Zlib_Uncompress true zi fuel input ds windowBits).events).length
          = (written_of (Zlib_Uncompress true zi fuel input ds windowBits).events).map some) ∧
    (input.length < 2 ^ 32 →
      largest_buffer (BZip2_Compress true bc fuel input output).events < 2 ^ 32 →
      (BZip2_Compress true bc fuel input output).ret = .value true →
      (BZip2_Compress true bc fuel input output).output
        = written_of (BZip2_Compress true bc fuel input output).events) ∧
    (input.length * 5 < 2 ^ 32 →
      largest_buffer (BZip2_Uncompress true bd fuel input ds).events < 2 ^ 32 →
      (written_of (BZip2_Uncompress true bd fuel input ds).events).length < 2 ^ 31 →
      ∀ buf, (BZip2_Uncompress true bd fuel input ds).ret = .value (some buf) →
        (BZip2_Uncompress true bd fuel input ds).decompress_size
          = (written_of (BZip2_Uncompress true bd fuel input ds).events).length ∧
        buf.take (written_of (BZip2_Uncompress true bd fuel input ds).events).length
          = (written_of (BZip2_Uncompress true bd fuel input ds).events).map some) := by
  refine ⟨?_, ?_, ?_, ?_⟩
  · intro hlen hs hr
    obtain ⟨s', b', evs, hL, hR⟩ := Zlib_Compress_success zd fuel opts input output hr
    rw [hR] at hs ⊢
    obtain ⟨r1, r2⟩ := zlib_loop_exact zd.step hB₁ hF₁ input (0 : Byte) id fuel _ _ [] s' b' evs
      (by rw [resize_length]; exact (Nat.zero_add _).trans (to_uint_of_lt hlen)) (by rfl) hL
      (size_lt_of_largest_buffer _ evs hs)
    have := (trim_exact (0 : Byte) id s' b' (written_of evs) r1 r2).2.1
    rw [List.map_id] at this
    exact this
  · intro hlen hs ht buf hr
    obtain ⟨s', evs, hL, hR⟩ := Zlib_Uncompress_success zi fuel input ds windowBits buf hr
    rw [hR] at hs ht ⊢
    obtain ⟨r1, r2⟩ := zlib_loop_exact zi.step hB₂ hF₂ input (none : Option Byte) some fuel _ _
      [] s' buf evs
      (by rw [List.length_replicate]; exact (Nat.zero_add _).trans (to_uint_of_lt hlen)) (by rfl) hL
      (size_lt_of_largest_buffer _ evs hs)
    obtain ⟨t1, _, t3⟩ := trim_exact (none : Option Byte) some s' buf (written_of evs) r1 r2
    refine ⟨?_, t3⟩
    show to_int (buf.length - s'.avail_out) = _
    rw [t1]
    exact to_int_of_lt ht
  · intro hlen hs hr
    obtain ⟨s', b', evs, hL, hR⟩ := BZip2_Compress_success bc fuel input output hr
    rw [hR] at hs ⊢
    obtain ⟨r1, r2⟩ := bzip2_loop_exact BZ_FINISH_OK bc.step hB₃ hF₃ input (0 : Byte) id fuel _ _
      [] s' b' evs
      (by rw [resize_length]; exact (Nat.zero_add _).trans (to_uint_of_lt hlen)) (by rfl) hL
      (size_lt_of_largest_buffer _ evs hs)
    have := (trim_exact (0 : Byte) id s' b' (written_of evs) r1 r2).2.1
    rw [List.map_id] at this
    exact this
  · intro hlen hs ht buf hr
    obtain ⟨s', evs, hL, hR⟩ := BZip2_Uncompress_success bd fuel input ds buf hr
    rw [hR] at hs ht ⊢
    obtain ⟨r1, r2⟩ := bzip2_loop_exact BZ_OK bd.step hB₄ hF₄ input (none : Option Byte) some
      fuel _ _ [] s' buf evs
      (by rw [List.length_replicate]; exact (Nat.zero_add _).trans (to_uint_of_lt hlen)) (by rfl) hL
      (size_lt_of_largest_buffer _ evs hs)
    obtain ⟨t1, _, t3⟩ := trim_exact (none : Option Byte) some s' buf (written_of evs) r1 r2
    refine ⟨?_, t3⟩
    show to_int (buf.length - s'.avail_out) = _
    rw [t1]
    exact to_int_of_lt ht

/-- Witness for C3: the stored-block engines on 3-byte inputs. -/
theorem exact_trim_witness :
    (Zlib_Compress true stored_deflate 5 ⟨-14, -1, 0⟩ [1, 2, 3] []).output
      = written_of (Zlib_Compress true stored_deflate 5 ⟨-14, -1, 0⟩ [1, 2, 3] []).events ∧
    ((Zlib_Uncompress true stored_inflate 5 [120, 2, 3] 0 (-14)).decompress_size
        = (written_of (Zlib_Uncompress true stored_inflate 5 [120, 2, 3] 0 (-14)).events).length ∧
      List.take
          (written_of (Zlib_Uncompress true stored_inflate 5 [120, 2, 3] 0 (-14)).events).length
          [some 2, some 3, none, none, none, none, none, none, none, none, none, none, none, none,
          none]
        = (written_of (Zlib_Uncompress true stored_inflate 5 [120, 2, 3] 0 (-14)).events).map
            some) ∧
    (BZip2_Compress true stored_bz_compress 5 [1, 2, 3] []).output
      = written_of (BZip2_Compress true stored_bz_compress 5 [1, 2, 3] []).events ∧
    ((BZip2_Uncompress true stored_bz_decompress 5 [120, 2, 3] 0).decompress_size
        = (written_of (BZip2_Uncompress true stored_bz_decompress 5 [120, 2, 3] 0).events).length ∧
      List.take
          (written_of (BZip2_Uncompress true stored_bz_decompress 5 [120, 2, 3] 0).events).length
          [some 2, some 3, none, none, none, none, none, none, none, none, none, none, none, none,
          none]
        = (written_of (BZip2_Uncompress true stored_bz_decompress 5 [120, 2, 3] 0).events).map
            some) :=
  ⟨(exact_trim stored_deflate stored_inflate stored_bz_compress stored_bz_decompress
      (buffering_bounded _ _ _ _) (buffering_bounded _ _ _ _) (buffering_bounded _ _ _ _)
      (buffering_bounded _ _ _ _) (buffering_fills _ _ _ _ (by decide))
      (buffering_fills _ _ _ _ (by decide)) (buffering_fills _ _ _ _ (by decide))
      (buffering_fills _ _ _ _ (by decide)) 5 ⟨-14, -1, 0⟩ [1, 2, 3] [] 0 (-14)).1 (by decide) (by decide) (by decide),
    (exact_trim stored_deflate stored_inflate stored_bz_compress stored_bz_decompress
      (buffering_bounded _ _ _ _) (buffering_bounded _ _ _ _) (buffering_bounded _ _ _ _)
      (buffering_bounded _ _ _ _) (buffering_fills _ _ _ _ (by decide))
      (buffering_fills _ _ _ _ (by decide)) (buffering_fills _ _ _ _ (by decide))
      (buffering_fills _ _ _ _ (by decide)) 5 ⟨-14, -1, 0⟩ [120, 2, 3] [] 0 (-14)).2.1 (by decide) (by decide) (by decide)
      [some 2, some 3, none, none, none, none, none, none, none, none, none, none, none, none,
          none] (by decide),
    (exact_trim stored_deflate stored_inflate stored_bz_compress stored_bz_decompress
      (buffering_bounded _ _ _ _) (buffering_bounded _ _ _ _) (buffering_bounded _ _ _ _)
      (buffering_bounded _ _ _ _) (buffering_fills _ _ _ _ (by decide))
      (buffering_fills _ _ _ _ (by decide)) (buffering_fills _ _ _ _ (by decide))
      (buffering_fills _ _ _ _ (by decide)) 5 ⟨-14, -1, 0⟩ [1, 2, 3] [] 0 (-14)).2.2.1 (by decide) (by decide) (by decide),
    (exact_trim stored_deflate stored_inflate stored_bz_compress stored_bz_decompress
      (buffering_bounded _ _ _ _) (buffering_bounded _ _ _ _) (buffering_bounded _ _ _ _)
      (buffering_bounded _ _ _ _) (buffering_fills _ _ _ _ (by decide))
      (buffering_fills _ _ _ _ (by decide)) (buffering_fills _ _ _ _ (by decide))
      (buffering_fills _ _ _ _ (by decide)) 5 ⟨-14, -1, 0⟩ [120, 2, 3] [] 0 (-14)).2.2.2 (by decide) (by decide) (by decide)
      [some 2, some 3, none, none, none, none, none, none, none, none, none, none, none, none,
          none] (by decide)⟩

/-! ## Round trip through zlib -/

theorem buffering_streams {ι : Type} (f : List Byte → List Byte) (zero_space : Int) (args : ι) :
    Streams (buffering_engine f Z_OK Z_STREAM_END zero_space : StreamEngine ι _) args f
      (fun s inp => s.getD (f inp)) where
  init_status := rfl
  init_pending := fun _ => rfl
  written_le := by
    intro s inp a ha
    unfold buffering_engine
    dsimp only
    rw [if_neg (by omega)]
    simp only [List.length_take]
    omega
  written_pending := by
    intro s inp a ha
    unfold buffering_engine
    dsimp only
    rw [if_neg (by omega)]
    exact List.take_append_drop _ _
  status := by
    intro s inp a ha
    unfold buffering_engine
    dsimp only
    rw [if_neg (by omega)]
    dsimp only
    by_cases h : (s.getD (f inp)).length ≤ a
    · rw [if_pos h]
      exact Or.inl ⟨rfl, List.drop_eq_nil_of_le h⟩
    · rw [if_neg h]
      refine Or.inr ⟨rfl, ?_⟩
      simp only [List.length_take]
      omega

theorem zlib_new_sz_delta (n : Nat) : 10 ≤ zlib_new_sz n - n := by
  unfold zlib_new_sz scale_02
  dsimp only
  split <;> omega

/-- Driven by `zlib_loop`, an engine that streams `f` delivers the whole pending stream: with more
fuel than pending bytes the loop ends normally and the buffer holds, up to the output cursor, the
bytes stored before followed by the pending stream. -/
theorem zlib_loop_streams {ι σ α : Type} (eng : StreamEngine ι σ) (args : ι)
    (f : List Byte → List Byte) (pending : σ → List Byte → List Byte)
    (hS : Streams eng args f pending) (input : List Byte) (fill : α) (inj : Byte → α)
    (fuel : Nat) :
    ∀ (strm : z_stream σ) (buf : List α) (acc : List Byte),
      0 < strm.avail_out → strm.next_out + strm.avail_out = buf.length →
      buf.take strm.next_out = acc.map inj →
      strm.next_out + (pending strm.state (view input strm)).length < 2 ^ 32 →
      (pending strm.state (view input strm)).length < fuel →
      ∃ s' b' evs, zlib_loop eng.step input fill inj fuel strm buf = (.finished s' b', evs) ∧
        s'.next_out + s'.avail_out = b'.length ∧
        b'.take s'.next_out = ([] ++ (acc ++ pending strm.state (view input strm))).map inj := by
  induction fuel with
  | zero =>
    intro strm buf acc _ _ _ _ h
    omega
  | succ fuel ih =>
    intro strm buf acc ha h1 h2 hb hf
    have hw := hS.written_le strm.state (view input strm) strm.avail_out ha
    have hp := hS.written_pending strm.state (view input strm) strm.avail_out ha
    have hst := hS.status strm.state (view input strm) strm.avail_out ha
    have hr : engine_reply eng.step input strm
        = eng.step strm.state (view input strm) strm.avail_out := rfl
    rw [← hr] at hw hp hst
    obtain ⟨e1, e2⟩ := stored_exact inj strm buf (engine_reply eng.step input strm) acc hw h1 h2
    rw [zlib_loop_succ]
    rcases hst with ⟨hend, hnil⟩ | ⟨hok, hfill⟩
    · rw [if_pos hend]
      rw [hnil, List.append_nil] at hp
      refine ⟨_, _, _, rfl, e1, ?_⟩
      rw [e2, hp]
      rfl
    · rw [if_neg (by rw [hok]; decide), if_pos hok]
      have hl := stored_length inj strm buf (engine_reply eng.step input strm)
      have hlen := congrArg List.length hp
      rw [List.length_append] at hlen
      have hno : (advance strm (engine_reply eng.step input strm)).next_out
          = (stored inj strm buf (engine_reply eng.step input strm)).length := by
        rw [hl]
        unfold advance
        dsimp only
        omega
      have hsz : buf.length < 2 ^ 32 := by omega
      obtain ⟨f1, f2⟩ := grow_exact zlib_new_sz fill inj
        (advance strm (engine_reply eng.step input strm))
        (stored inj strm buf (engine_reply eng.step input strm))
        (acc ++ (engine_reply eng.step input strm).written)
        (le_of_lt (zlib_new_sz_gt _)) (by rw [hl]; exact (grow_delta_lt _ hsz).1) hno e2
      have hv : pending (grow_strm zlib_new_sz (advance strm (engine_reply eng.step input strm))
            (stored inj strm buf (engine_reply eng.step input strm))).state
          (view input (grow_strm zlib_new_sz (advance strm (engine_reply eng.step input strm))
            (stored inj strm buf (engine_reply eng.step input strm))))
          = pending (engine_reply eng.step input strm).state
            ((view input strm).drop (engine_reply eng.step input strm).consumed) := by
        rw [view_grow, view_advance]
        rfl
      have ha2 : 0 < (grow_strm zlib_new_sz (advance strm (engine_reply eng.step input strm))
          (stored inj strm buf (engine_reply eng.step input strm))).avail_out := by
        unfold grow_strm
        dsimp only
        rw [to_uint_of_lt (by rw [hl]; exact (grow_delta_lt _ hsz).1)]
        exact lt_of_lt_of_le (by decide) (zlib_new_sz_delta _)
      have hn2 : (grow_strm zlib_new_sz (advance strm (engine_reply eng.step input strm))
          (stored inj strm buf (engine_reply eng.step input strm))).next_out = buf.length := hl
      obtain ⟨s', b', evs, r0, r1, r2⟩ := ih _ _ _ ha2 f1 f2
        (by rw [hv, hn2]; omega) (by rw [hv]; omega)
      refine ⟨s', b', call_event strm buf (engine_reply eng.step input strm) :: evs, ?_, r1, ?_⟩
      · rw [r0]
      · rw [r2, hv, List.nil_append, List.nil_append, List.append_assoc, hp]

theorem view_initial {σ : Type} (input : List Byte) (a : Nat) (st : σ)
    (h : input.length < 2 ^ 32) :
    view input ⟨0, to_uint input.length, 0, a, st⟩ = input := by
  unfold view
  dsimp only
  rw [to_uint_of_lt h, List.drop_zero, List.take_length]

theorem stored_lossless (x : List Byte) : stored_dec (stored_enc x) = x := rfl

theorem zlib_loop_prefix {σ α : Type} (step : σ → List Byte → Nat → Reply σ) (input : List Byte)
    (fill : α) (inj : Byte → α) (k : Nat) (fuel : Nat) :
    ∀ (strm : z_stream σ) (buf : List α) (s' : z_stream σ) (b' : List α) (evs : List Event),
      k ≤ strm.next_out → strm.next_out + strm.avail_out ≤ buf.length →
      zlib_loop step input fill inj fuel strm buf = (.finished s' b', evs) →
      b'.take k = buf.take k := by
  induction fuel with
  | zero =>
    intro strm buf s' b' evs _ _ h
    simp [zlib_loop] at h
  | succ fuel ih =>
    intro strm buf s' b' evs hk hw h
    rw [zlib_loop_succ] at h
    split at h
    · obtain ⟨g1, _⟩ := Prod.mk.inj h
      injection g1 with g3 g4
      rw [← g4]
      exact store_take_of_le _ _ _ _ hk
    · split at h
      · obtain ⟨g1, _⟩ := Prod.mk.inj h
        have hl := stored_length inj strm buf (engine_reply step input strm)
        rw [ih _ _ s' b' _ (by show k ≤ (stored inj strm buf _).length; rw [hl]; omega)
          (grow_window _ _ _ _ (le_of_lt (zlib_new_sz_gt _))) (Prod.ext g1 rfl)]
        unfold grow_buf
        rw [resize_take_of_le _ _ _ _ (by rw [hl]; have := zlib_new_sz_gt buf.length; omega)
          (by rw [hl]; omega)]
        exact store_take_of_le _ _ _ _ hk
      · simp at h

theorem stored_inflate_first_call (x : List Byte) (a : Nat) (ha : a ≠ 0) (hx : a < x.length) :
    stored_inflate.step none (stored_enc x) a
      = ⟨Z_OK, (stored_enc x).length, x.take a, some (x.drop a)⟩ := by
  unfold stored_inflate buffering_engine
  dsimp only
  rw [if_neg ha]
  have e : (none : Option (List Byte)).getD (stored_dec (stored_enc x)) = x := rfl
  rw [e, if_neg (by omega)]

theorem store_gap {α : Type} (fill : α) (w : List α) (m k : Nat) (hk : w.length < k)
    (hm : k ≤ m) : fill ∈ (store (List.replicate m fill) 0 w).take k := by
  unfold store
  rw [List.take_take, List.length_replicate, Nat.min_eq_left hm, List.take_zero, List.nil_append,
    List.take_append_eq_append_take, List.mem_append]
  right
  rw [List.drop_replicate, List.take_replicate]
  exact List.mem_replicate.mpr ⟨by omega, rfl⟩

theorem zlib_uncompress_wrapped_window (x : List Byte) (h1 : x.length + 1 < 2 ^ 32)
    (h2 : to_uint ((x.length + 1) * 5) = 4) (h5 : 5 ≤ x.length) (fuel : Nat) (ds : Int)
    (buf : List (Option Byte)) :
    ¬ ((Zlib_Uncompress true stored_inflate fuel (stored_enc x) ds (-14)).ret
        = .value (some buf) ∧ buf.take x.length = x.map some) := by
  rintro ⟨hr, hb⟩
  obtain ⟨s', evs, hL, _⟩ := Zlib_Uncompress_success _ _ _ _ _ _ hr
  have hlen : (stored_enc x).length = x.length + 1 := rfl
  cases fuel with
  | zero => simp [zlib_loop] at hL
  | succ n =>
    rw [zlib_loop_succ] at hL
    have hr0 : engine_reply stored_inflate.step (stored_enc x)
        ⟨0, to_uint (stored_enc x).length, 0, to_uint ((stored_enc x).length * 5),
          (stored_inflate.init (if (-14 : Int) > 0 then -14 + 32 else -14)).2⟩
        = ⟨Z_OK, (stored_enc x).length, x.take 4, some (x.drop 4)⟩ := by
      unfold engine_reply
      rw [view_initial _ _ _ (by rw [hlen]; exact h1)]
      show stored_inflate.step none (stored_enc x) (to_uint ((stored_enc x).length * 5)) = _
      rw [hlen, h2]
      exact stored_inflate_first_call x 4 (by decide) (by omega)
    rw [hr0] at hL
    rw [if_neg (show ¬ Z_OK = Z_STREAM_END by decide), if_pos rfl] at hL
    obtain ⟨g1, _⟩ := Prod.mk.inj hL
    have hp := zlib_loop_prefix _ _ _ _ 5 n _ _ s' buf _
      (by
        show 5 ≤ (stored some _ _ _).length
        rw [stored_length, List.length_replicate, hlen]
        omega)
      (grow_window _ _ _ _ (le_of_lt (zlib_new_sz_gt _))) (Prod.ext g1 rfl)
    unfold grow_buf at hp
    rw [resize_take_of_le _ _ _ _
      (by rw [stored_length, List.length_replicate, hlen]
          have := zlib_new_sz_gt ((x.length + 1) * 5)
          omega)
      (by rw [stored_length, List.length_replicate, hlen]; omega)] at hp
    have hmem : none ∈ buf.take 5 := by
      rw [hp]
      unfold stored
      exact store_gap none _ _ 5 (by simp only [List.length_map, List.length_take]; omega)
        (by rw [hlen]; omega)
    have h3 : buf.take 5 = (x.map some).take 5 := by
      rw [← hb, List.take_take, Nat.min_eq_left h5]
    rw [h3] at hmem
    have h4 := List.mem_of_mem_take hmem
    simp at h4

theorem sparse_lossless (x : List Byte) : sparse_dec (sparse_enc x) = x := by
  unfold sparse_enc
  split
  · next h => rw [h]; rfl
  · rfl

/-- C1 (as stated, refuted).  The stored-block engines form a lossless pair that streams its
codec, and yet: on the empty input `Zlib_Compress` offers no output space, the engine answers
`Z_BUF_ERROR` as zlib does, and no amount of fuel makes `Zlib_Compress` return `true`; for an
input of `2^31` bytes, whose length fits 32-bit counters, `*decompress_size` is an `int` and
cannot be the input length; and for a payload of 858993460 bytes the initial capacity
`5 * 858993460 = 2^32 + 4` is offered as `avail_out = 4`, the growth step then skips the rest of
the buffer, and the returned buffer never starts with the input.  The same happens on the
decompression side when the payload is empty: with the lossless pair for `sparse_enc`,
`Zlib_Compress` turns `[0]` into the empty payload, for which `Zlib_Uncompress` offers no output
space and never returns a buffer. -/
theorem zlib_round_trip_fails :
    (Streams stored_deflate ⟨-1, Z_DEFLATED, -14, 8, 0⟩ stored_enc
        (fun s inp => s.getD (stored_enc inp)) ∧
      Streams stored_inflate (-14) stored_dec (fun s inp => s.getD (stored_dec inp)) ∧
      ∀ x, stored_dec (stored_enc x) = x) ∧
    (¬ ∃ fuel, (Zlib_Compress true stored_deflate fuel ⟨-14, -1, 0⟩ [] []).ret = .value true) ∧
    (¬ ∃ fuel ds buf,
      (Zlib_Uncompress true stored_inflate fuel (stored_enc (List.replicate (2 ^ 31) 0)) ds
        (-14)).ret = .value (some buf) ∧
      (Zlib_Uncompress true stored_inflate fuel (stored_enc (List.replicate (2 ^ 31) 0)) ds
        (-14)).decompress_size = ((List.replicate (2 ^ 31) (0 : Byte)).length : Int)) ∧
    (¬ ∃ fuel ds buf,
      (Zlib_Uncompress true stored_inflate fuel (stored_enc (List.replicate 858993459 0)) ds
        (-14)).ret = .value (some buf) ∧
      buf.take (List.replicate 858993459 (0 : Byte)).length
        = (List.replicate 858993459 (0 : Byte)).map some) ∧
    (Streams sparse_deflate ⟨-1, Z_DEFLATED, -14, 8, 0⟩ sparse_enc
        (fun s inp => s.getD (sparse_enc inp)) ∧
      Streams sparse_inflate (-14) sparse_dec (fun s inp => s.getD (sparse_dec inp)) ∧
      ∀ x, sparse_dec (sparse_enc x) = x) ∧
    (Zlib_Compress true sparse_deflate 5 ⟨-14, -1, 0⟩ [0] []).ret = .value true ∧
    (Zlib_Compress true sparse_deflate 5 ⟨-14, -1, 0⟩ [0] []).output = [] ∧
    (¬ ∃ fuel ds buf,
      (Zlib_Uncompress true sparse_inflate fuel [] ds (-14)).ret = .value (some buf)) := by
  refine ⟨⟨buffering_streams _ _ _, buffering_streams _ _ _, stored_lossless⟩, ?_, ?_, ?_,
    ⟨buffering_streams _ _ _, buffering_streams _ _ _, sparse_lossless⟩, by decide, by decide,
    ?_⟩
  · rintro ⟨fuel, h⟩
    obtain ⟨s', b', evs, hL, _⟩ := Zlib_Compress_success _ _ _ _ _ h
    cases fuel with
    | zero => simp [zlib_loop] at hL
    | succ n =>
      rw [zlib_loop_succ] at hL
      split at hL
      · next hs => exact absurd hs (by decide)
      · split at hL
        · next hs => exact absurd hs (by decide)
        · simp at hL
  · rintro ⟨fuel, ds, buf, hr, hsz⟩
    obtain ⟨s', evs, _, hR⟩ := Zlib_Uncompress_success _ _ _ _ _ _ hr
    rw [hR, List.length_replicate] at hsz
    have hlt := to_int_lt (buf.length - s'.avail_out)
    have hsz' : to_int (buf.length - s'.avail_out) = ((2 ^ 31 : Nat) : Int) := hsz
    rw [hsz'] at hlt
    norm_num at hlt
  · rintro ⟨fuel, ds, buf, h⟩
    exact zlib_uncompress_wrapped_window (List.replicate 858993459 0)
      (by rw [List.length_replicate]; decide) (by rw [List.length_replicate]; decide)
      (by rw [List.length_replicate]; decide) fuel ds buf h
  · rintro ⟨fuel, ds, buf, h⟩
    obtain ⟨s', evs, hL, _⟩ := Zlib_Uncompress_success _ _ _ _ _ _ h
    have hw : (if (-14 : Int) > 0 then (-14 : Int) + 32 else -14) = -14 := by decide
    rw [hw] at hL
    cases fuel with
    | zero => simp [zlib_loop] at hL
    | succ n =>
      rw [zlib_loop_succ] at hL
      split at hL
      · next hs => exact absurd hs (by decide)
      · split at hL
        · next hs => exact absurd hs (by decide)
        · simp at hL

/-- C1 (amended).  For a zlib engine pair that streams a lossless codec (`Streams`: offered some
output space, each call stores the next bytes of the stream and answers `Z_STREAM_END` when the
stream is complete or `Z_OK` when the space is used up), for every input `x` that is not empty
and shorter than `2^31` bytes, and whose payload `enc x` is not empty and has
`5 * |enc x| < 2^32`: with enough fuel, `Zlib_Compress` returns `true` with the payload `enc x`,
and `Zlib_Uncompress` of that payload with the same `window_bits` returns a buffer whose first
`*decompress_size = |x|` bytes are `x`. -/
theorem zlib_round_trip {σ₁ σ₂ : Type} (zd : StreamEngine DeflateArgs σ₁)
    (zi : StreamEngine Int σ₂) (enc dec : List Byte → List Byte)
    (pd : σ₁ → List Byte → List Byte) (pi : σ₂ → List Byte → List Byte)
    (opts : CompressionOptions)
    (hd : Streams zd ⟨opts.level, Z_DEFLATED, opts.window_bits, 8, opts.strategy⟩ enc pd)
    (hi : Streams zi (if opts.window_bits > 0 then opts.window_bits + 32 else opts.window_bits)
      dec pi)
    (hl : ∀ x, dec (enc x) = x) (x output : List Byte) (ds : Int) (hx0 : x ≠ [])
    (hx : x.length < 2 ^ 31) (hp0 : enc x ≠ []) (hp : (enc x).length * 5 < 2 ^ 32) :
    ∀ fuel, (enc x).length + x.length < fuel →
      (Zlib_Compress true zd fuel opts x output).ret = .value true ∧
      (Zlib_Compress true zd fuel opts x output).output = enc x ∧
      ∃ buf, (Zlib_Uncompress true zi fuel (Zlib_Compress true zd fuel opts x output).output ds
          opts.window_bits).ret = .value (some buf) ∧
        (Zlib_Uncompress true zi fuel (Zlib_Compress true zd fuel opts x output).output ds
          opts.window_bits).decompress_size = x.length ∧
        buf.take x.length = x.map some := by
  intro fuel hfuel
  have hx1 : 0 < x.length := List.length_pos.mpr hx0
  have hp1 : 0 < (enc x).length := List.length_pos.mpr hp0
  have hxl : x.length < 2 ^ 32 := by omega
  have hpl : (enc x).length < 2 ^ 32 := by omega
  have hP1 : pd (zd.init ⟨opts.level, Z_DEFLATED, opts.window_bits, 8, opts.strategy⟩).2
      (view x ⟨0, to_uint x.length, 0, to_uint x.length,
        (zd.init ⟨opts.level, Z_DEFLATED, opts.window_bits, 8, opts.strategy⟩).2⟩) = enc x := by
    rw [view_initial x _ _ hxl, hd.init_pending]
  obtain ⟨s', b', evs, hL, r1, r2⟩ := zlib_loop_streams zd _ enc pd hd x (0 : Byte) id fuel
    ⟨0, to_uint x.length, 0, to_uint x.length,
      (zd.init ⟨opts.level, Z_DEFLATED, opts.window_bits, 8, opts.strategy⟩).2⟩
    (resize 0 output x.length) []
    (by show 0 < to_uint x.length; rw [to_uint_of_lt hxl]; exact hx1)
    (by rw [resize_length]; exact (Nat.zero_add _).trans (to_uint_of_lt hxl))
    (by rfl) (by rw [hP1]; show 0 + (enc x).length < 2 ^ 32; omega) (by rw [hP1]; omega)
  rw [hP1] at r2
  have hC := Zlib_Compress_finished zd fuel opts x output s' b' evs hd.init_status hL
  have hout := (trim_exact (0 : Byte) id s' b' ([] ++ enc x) r1 r2).2.1
  rw [List.map_id, List.nil_append] at hout
  rw [hC]
  refine ⟨rfl, hout, ?_⟩
  show ∃ buf, (Zlib_Uncompress true zi fuel (resize 0 b' (b'.length - s'.avail_out)) ds
      opts.window_bits).ret = .value (some buf) ∧
    (Zlib_Uncompress true zi fuel (resize 0 b' (b'.length - s'.avail_out)) ds
      opts.window_bits).decompress_size = x.length ∧ buf.take x.length = x.map some
  rw [hout]
  have hP2 : pi (zi.init (if opts.window_bits > 0 then opts.window_bits + 32
        else opts.window_bits)).2
      (view (enc x) ⟨0, to_uint (enc x).length, 0, to_uint ((enc x).length * 5),
        (zi.init (if opts.window_bits > 0 then opts.window_bits + 32
          else opts.window_bits)).2⟩) = x := by
    rw [view_initial (enc x) _ _ hpl, hi.init_pending, hl]
  obtain ⟨t', c', evs', hL', q1, q2⟩ := zlib_loop_streams zi _ dec pi hi (enc x)
    (none : Option Byte) some fuel
    ⟨0, to_uint (enc x).length, 0, to_uint ((enc x).length * 5),
      (zi.init (if opts.window_bits > 0 then opts.window_bits + 32 else opts.window_bits)).2⟩
    (List.replicate ((enc x).length * 5) none) []
    (by show 0 < to_uint ((enc x).length * 5); rw [to_uint_of_lt hp]; omega)
    (by rw [List.length_replicate]; exact (Nat.zero_add _).trans (to_uint_of_lt hp))
    (by rfl) (by rw [hP2]; show 0 + x.length < 2 ^ 32; omega) (by rw [hP2]; omega)
  rw [hP2] at q2
  have hU := Zlib_Uncompress_finished zi fuel (enc x) ds opts.window_bits t' c' evs'
    hi.init_status hL'
  obtain ⟨u1, _, u3⟩ := trim_exact (none : Option Byte) some t' c' ([] ++ x) q1 q2
  rw [List.nil_append] at u1 u3
  rw [hU]
  refine ⟨c', rfl, ?_, u3⟩
  show to_int (c'.length - t'.avail_out) = x.length
  rw [u1]
  exact to_int_of_lt hx

/-- Witness for C1: the stored-block pair on a 3-byte input. -/
theorem zlib_round_trip_witness :
    ([1, 2, 3] : List Byte) ≠ [] ∧ ([1, 2, 3] : List Byte).length < 2 ^ 31 ∧
    (stored_enc [1, 2, 3]).length + ([1, 2, 3] : List Byte).length < 8 ∧
    (Zlib_Compress true stored_deflate 8 ⟨-14, -1, 0⟩ [1, 2, 3] []).ret = .value true ∧
    (Zlib_Compress true stored_deflate 8 ⟨-14, -1, 0⟩ [1, 2, 3] []).output
      = stored_enc [1, 2, 3] ∧
    ∃ buf, (Zlib_Uncompress true stored_inflate 8
        (Zlib_Compress true stored_deflate 8 ⟨-14, -1, 0⟩ [1, 2, 3] []).output 0 (-14)).ret
        = .value (some buf) ∧
      (Zlib_Uncompress true stored_inflate 8
        (Zlib_Compress true stored_deflate 8 ⟨-14, -1, 0⟩ [1, 2, 3] []).output 0
        (-14)).decompress_size = ([1, 2, 3] : List Byte).length ∧
      buf.take ([1, 2, 3] : List Byte).length = ([1, 2, 3] : List Byte).map some :=
  ⟨by decide, by decide, by decide,
    zlib_round_trip stored_deflate stored_inflate stored_enc stored_dec
      (fun s inp => s.getD (stored_enc inp)) (fun s inp => s.getD (stored_dec inp)) ⟨-14, -1, 0⟩
      (buffering_streams _ _ _) (buffering_streams _ _ _) stored_lossless [1, 2, 3] [] 0
      (by decide) (by decide) (by decide) (by decide) 8 (by decide)⟩

end rocksdb
